import Mathlib

/-!
Verification of the Sudoku engine: board model, serialization, the bitmask
backtracking solver, the MRV cell chooser, the puzzle generator plumbing and
the note-maintenance strategies (naked singles / naked pairs), embedded from
the TypeScript sources (`engine.ts`, `bitmaskSolver.ts`, `puzzleGenerator.ts`,
`solverStrategies.ts`, `coord.ts`, `gameStore.ts`).
-/

namespace Sudoku

/-- `BOX_SIZE` from `constants.ts`. -/
def BOX_SIZE : Nat := 3

/-- `GRID_SIZE` from `constants.ts`. -/
def GRID_SIZE : Nat := BOX_SIZE * BOX_SIZE

/-- `BOARD_SIZE` from `constants.ts`. -/
def BOARD_SIZE : Nat := GRID_SIZE * GRID_SIZE

/-- `Grid = (number | null)[][]` from `engine.ts`: a matrix of digit-or-null
cells, `none` standing for `null`. -/
abbrev Grid := List (List (Option Nat))

/-- Read `grid[r][c]` (out-of-range reads default to `none`). -/
def getCell (g : Grid) (r c : Nat) : Option Nat := (g.getD r []).getD c none

/-- Write `grid[r][c] = v`. -/
def setCell (g : Grid) (r c : Nat) (v : Option Nat) : Grid :=
  g.set r ((g.getD r []).set c v)

/-! ### `List.getD` / `List.set` helper lemmas -/

theorem getD_set_self {α : Type} {l : List α} {i : Nat} {a d : α}
    (h : i < l.length) : (l.set i a).getD i d = a := by
  simp [List.getD_eq_getElem?_getD, List.getElem?_set_self h]

theorem getD_set_ne {α : Type} {l : List α} {i j : Nat} {a d : α}
    (h : i ≠ j) : (l.set i a).getD j d = l.getD j d := by
  simp [List.getD_eq_getElem?_getD, List.getElem?_set_ne h]

theorem getD_eq_getElem {α : Type} (l : List α) (d : α) {i : Nat}
    (h : i < l.length) : l.getD i d = l[i] := by
  simp [List.getD_eq_getElem?_getD, List.getElem?_eq_getElem h]

theorem getD_mem_of_lt {α : Type} (l : List α) (d : α) {i : Nat}
    (h : i < l.length) : l.getD i d ∈ l := by
  rw [getD_eq_getElem l d h]; exact List.getElem_mem _

/-- The grid is a 9×9 matrix. -/
def WellFormed (g : Grid) : Prop :=
  g.length = GRID_SIZE ∧ ∀ row ∈ g, row.length = GRID_SIZE

instance : DecidablePred WellFormed := fun g => by
  unfold WellFormed; infer_instance

/-- A cell content is `null` or a digit 1–9. -/
def cellOK : Option Nat → Prop
  | none => True
  | some v => 1 ≤ v ∧ v ≤ 9

instance : DecidablePred cellOK := fun o => by
  cases o <;> unfold cellOK <;> infer_instance

/-- All cells hold `null` or digits 1–9. -/
def CellsInRange (g : Grid) : Prop :=
  ∀ r < GRID_SIZE, ∀ c < GRID_SIZE, cellOK (getCell g r c)

instance : DecidablePred CellsInRange := fun g => by
  unfold CellsInRange; infer_instance

/-- Two distinct positions share a row, column or 3×3 box. -/
def PeerPos (r₁ c₁ r₂ c₂ : Nat) : Prop :=
  ¬(r₁ = r₂ ∧ c₁ = c₂) ∧
    (r₁ = r₂ ∨ c₁ = c₂ ∨ (r₁ / BOX_SIZE = r₂ / BOX_SIZE ∧ c₁ / BOX_SIZE = c₂ / BOX_SIZE))

instance (r₁ c₁ r₂ c₂ : Nat) : Decidable (PeerPos r₁ c₁ r₂ c₂) := by
  unfold PeerPos; infer_instance

/-- Partial validity: no two peer cells hold the same non-null value. -/
def ValidG (g : Grid) : Prop :=
  ∀ r₁ < GRID_SIZE, ∀ c₁ < GRID_SIZE, ∀ r₂ < GRID_SIZE, ∀ c₂ < GRID_SIZE,
    PeerPos r₁ c₁ r₂ c₂ → getCell g r₁ c₁ ≠ none →
      getCell g r₁ c₁ ≠ getCell g r₂ c₂

set_option synthInstance.maxHeartbeats 2000000 in
set_option synthInstance.maxSize 2048 in
instance : DecidablePred ValidG := fun g => by
  unfold ValidG; infer_instance

/-- Every cell is filled. -/
def Complete (g : Grid) : Prop :=
  ∀ r < GRID_SIZE, ∀ c < GRID_SIZE, getCell g r c ≠ none

instance : DecidablePred Complete := fun g => by
  unfold Complete; infer_instance

/-- `s` agrees with every filled cell of `g`. -/
def Extends (g s : Grid) : Prop :=
  ∀ r < GRID_SIZE, ∀ c < GRID_SIZE, getCell g r c ≠ none → getCell s r c = getCell g r c

instance (g s : Grid) : Decidable (Extends g s) := by
  unfold Extends; infer_instance

/-- `s` is a (full, valid) solution of the puzzle `g`. -/
def IsSolution (g s : Grid) : Prop :=
  WellFormed s ∧ CellsInRange s ∧ Complete s ∧ ValidG s ∧ Extends g s

instance (g s : Grid) : Decidable (IsSolution g s) := by
  unfold IsSolution; infer_instance

/-! ### Basic get/set lemmas -/

theorem rowLen_of_wf {g : Grid} (hg : WellFormed g) {r : Nat} (hr : r < GRID_SIZE) :
    (g.getD r []).length = GRID_SIZE :=
  hg.2 _ (getD_mem_of_lt g [] (by rw [hg.1]; exact hr))

theorem getCell_setCell_self {g : Grid} {r c : Nat} (v : Option Nat)
    (hg : WellFormed g) (hr : r < GRID_SIZE) (hc : c < GRID_SIZE) :
    getCell (setCell g r c v) r c = v := by
  have hrlt : r < g.length := by rw [hg.1]; exact hr
  have hrow : (g.getD r []).length = GRID_SIZE := rowLen_of_wf hg hr
  unfold getCell setCell
  rw [getD_set_self hrlt, getD_set_self (by rw [hrow]; exact hc)]

theorem getCell_setCell_ne {g : Grid} {r c r' c' : Nat} (v : Option Nat)
    (h : ¬(r = r' ∧ c = c')) :
    getCell (setCell g r c v) r' c' = getCell g r' c' := by
  unfold getCell setCell
  by_cases hrr : r = r'
  · subst hrr
    have hcc : c ≠ c' := fun hc => h ⟨rfl, hc⟩
    by_cases hrl : r < g.length
    · rw [getD_set_self hrl, getD_set_ne hcc]
    · rw [List.set_eq_of_length_le (by omega)]
  · rw [getD_set_ne hrr]

theorem wellFormed_setCell {g : Grid} {r c : Nat} (v : Option Nat)
    (hg : WellFormed g) : WellFormed (setCell g r c v) := by
  rcases hg with ⟨hlen, hrows⟩
  by_cases hrl : r < g.length
  · refine ⟨by simp [setCell, hlen], ?_⟩
    intro row hrow
    rcases List.mem_or_eq_of_mem_set hrow with h | h
    · exact hrows _ h
    · subst h
      simp only [List.length_set]
      exact hrows _ (getD_mem_of_lt g [] hrl)
  · unfold setCell
    rw [List.set_eq_of_length_le (by omega)]
    exact ⟨hlen, hrows⟩

/-- Pointwise-equal well-formed grids are equal. -/
theorem Grid.ext {g g' : Grid} (hg : WellFormed g) (hg' : WellFormed g')
    (h : ∀ r < GRID_SIZE, ∀ c < GRID_SIZE, getCell g r c = getCell g' r c) :
    g = g' := by
  rcases hg with ⟨hlen, hrows⟩
  rcases hg' with ⟨hlen', hrows'⟩
  apply List.ext_getElem (by rw [hlen, hlen'])
  intro r hr hr'
  have hrow : g[r].length = GRID_SIZE := hrows _ (List.getElem_mem _)
  have hrow' : g'[r].length = GRID_SIZE := hrows' _ (List.getElem_mem _)
  apply List.ext_getElem (by rw [hrow, hrow'])
  intro c hc hc'
  have hcell := h r (by rw [hlen] at hr; exact hr) c (by rw [hrow] at hc; exact hc)
  unfold getCell at hcell
  rwa [getD_eq_getElem g [] hr, getD_eq_getElem _ none hc,
    getD_eq_getElem g' [] hr', getD_eq_getElem _ none hc'] at hcell

theorem GRID_SIZE_eq : GRID_SIZE = 9 := rfl

theorem BOARD_SIZE_eq : BOARD_SIZE = 81 := rfl

/-! ### Serialization (`stringToGrid` from `puzzleGenerator.ts` / `gameStore.ts`) -/

/-- The `Array(GRID_SIZE).fill(null).map(() => Array(GRID_SIZE).fill(null))`
initializer: a 9×9 grid of `null`s. -/
def emptyGrid : Grid := List.replicate GRID_SIZE (List.replicate GRID_SIZE none)

/-- `parseInt(str[i])` applied to a single digit character. -/
def charToVal (ch : Char) : Nat := ch.toNat - 48

/-- One iteration of the `stringToGrid` loop: skip `'0'`, otherwise write the
parsed digit at `Coord.fromIndex(i) = (i / 9, i % 9)`. -/
def stringToGridStep (s : List Char) (g : Grid) (i : Nat) : Grid :=
  if s.getD i '0' = '0' then g
  else setCell g (i / GRID_SIZE) (i % GRID_SIZE) (some (charToVal (s.getD i '0')))

/-- `stringToGrid` from `puzzleGenerator.ts` (identical in `gameStore.ts`):
parse an 81-character row-major string, `'0'` meaning empty. -/
def stringToGrid (s : List Char) : Grid :=
  (List.range BOARD_SIZE).foldl (stringToGridStep s) emptyGrid

/-- Modelled from the spec: the inverse serialization is "the mirror
operation (not shown but symmetric)" of `stringToGrid` — an 81-character
row-major digit string with `'0'` for an empty cell and `'1'`–`'9'` for
filled cells. -/
def gridToString (g : Grid) : List Char :=
  (List.range BOARD_SIZE).map (fun i =>
    match getCell g (i / GRID_SIZE) (i % GRID_SIZE) with
    | none => '0'
    | some v => Char.ofNat (48 + v))

theorem getCell_emptyGrid : ∀ r < 9, ∀ c < 9, getCell emptyGrid r c = none := by
  decide

theorem wellFormed_emptyGrid : WellFormed emptyGrid := by decide

theorem wellFormed_foldl_stringToGridStep (s : List Char) (l : List Nat) {g : Grid}
    (hg : WellFormed g) : WellFormed (l.foldl (stringToGridStep s) g) := by
  induction l generalizing g with
  | nil => exact hg
  | cons i t ih =>
    apply ih
    rw [stringToGridStep]
    split
    · exact hg
    · exact wellFormed_setCell _ hg

theorem wellFormed_stringToGrid (s : List Char) : WellFormed (stringToGrid s) :=
  wellFormed_foldl_stringToGridStep s _ wellFormed_emptyGrid

theorem getCell_stringToGrid_aux (s : List Char) (n : Nat) (hn : n ≤ 81)
    {r c : Nat} (hr : r < 9) (hc : c < 9) :
    getCell ((List.range n).foldl (stringToGridStep s) emptyGrid) r c =
      if 9 * r + c < n ∧ s.getD (9 * r + c) '0' ≠ '0' then
        some (charToVal (s.getD (9 * r + c) '0'))
      else none := by
  induction n with
  | zero => simp [getCell_emptyGrid r hr c hc]
  | succ n ih =>
    have hn' : n ≤ 81 := Nat.le_of_succ_le hn
    rw [List.range_succ, List.foldl_append, List.foldl_cons, List.foldl_nil]
    by_cases heq : 9 * r + c = n
    · by_cases hch : s.getD n '0' = '0'
      · rw [stringToGridStep, if_pos hch, ih hn']
        subst heq
        have h1 : ¬(9 * r + c < 9 * r + c ∧ s.getD (9 * r + c) '0' ≠ '0') :=
          fun h => Nat.lt_irrefl _ h.1
        have h2 : ¬(9 * r + c < 9 * r + c + 1 ∧ s.getD (9 * r + c) '0' ≠ '0') :=
          fun h => h.2 hch
        rw [if_neg h1, if_neg h2]
      · have hdiv : n / GRID_SIZE = r := by
          show n / 9 = r
          omega
        have hmod : n % GRID_SIZE = c := by
          show n % 9 = c
          omega
        rw [stringToGridStep, if_neg hch, hdiv, hmod,
          getCell_setCell_self _ (wellFormed_foldl_stringToGridStep s _ wellFormed_emptyGrid)
            hr hc]
        subst heq
        rw [if_pos ⟨Nat.lt_succ_self _, hch⟩]
    · have hne : ¬(n / GRID_SIZE = r ∧ n % GRID_SIZE = c) := by
        intro ⟨h1, h2⟩
        apply heq
        have h1' : n / 9 = r := h1
        have h2' : n % 9 = c := h2
        omega
      have hstep : getCell (stringToGridStep s ((List.range n).foldl (stringToGridStep s) emptyGrid) n) r c
          = getCell ((List.range n).foldl (stringToGridStep s) emptyGrid) r c := by
        rw [stringToGridStep]
        split
        · rfl
        · exact getCell_setCell_ne _ hne
      rw [hstep, ih hn']
      have hiff : (9 * r + c < n + 1) ↔ (9 * r + c < n) := by omega
      simp only [hiff]

theorem getD_gridToString (g : Grid) {i : Nat} (hi : i < 81) :
    (gridToString g).getD i '0' =
      (match getCell g (i / GRID_SIZE) (i % GRID_SIZE) with
        | none => '0'
        | some v => Char.ofNat (48 + v)) := by
  unfold gridToString
  have hlen : i < ((List.range BOARD_SIZE).map (fun i =>
      match getCell g (i / GRID_SIZE) (i % GRID_SIZE) with
      | none => '0'
      | some v => Char.ofNat (48 + v))).length := by
    simpa using hi
  rw [getD_eq_getElem _ _ hlen, List.getElem_map, List.getElem_range]

theorem charVal_roundtrip {v : Nat} (h1 : 1 ≤ v) (h9 : v ≤ 9) :
    Char.ofNat (48 + v) ≠ '0' ∧ charToVal (Char.ofNat (48 + v)) = v := by
  interval_cases v <;> exact ⟨by decide, by decide⟩

/-- **C8.** Serialization round-trips: for every 9×9 board whose cells are
empty or hold a digit 1–9, `stringToGrid (gridToString board) = board` —
serializing to the 81-character row-major digit string (`'0'` for empty) and
re-parsing yields the original board. -/
theorem stringToGrid_gridToString (g : Grid)
    (hwf : WellFormed g) (hrange : CellsInRange g) :
    stringToGrid (gridToString g) = g := by
  apply Grid.ext (wellFormed_stringToGrid _) hwf
  intro r hr c hc
  unfold stringToGrid
  rw [getCell_stringToGrid_aux _ BOARD_SIZE (Nat.le_refl _) hr hc]
  have hr' : r < 9 := hr
  have hc' : c < 9 := hc
  have hrc9 : 9 * r + c < 81 := by omega
  have hrc81 : 9 * r + c < BOARD_SIZE := hrc9
  have hdiv : (9 * r + c) / GRID_SIZE = r := by
    show (9 * r + c) / 9 = r
    omega
  have hmod : (9 * r + c) % GRID_SIZE = c := by
    show (9 * r + c) % 9 = c
    omega
  rw [getD_gridToString g hrc9, hdiv, hmod]
  rcases hcell : getCell g r c with _ | v
  · simp
  · have hv := hrange r hr c hc
    rw [hcell] at hv
    rcases charVal_roundtrip hv.1 hv.2 with ⟨hne, hval⟩
    simp [hne, hval, hrc81]

/-- Witness for C8 at a concrete board: the fully-empty board round-trips. -/
theorem stringToGrid_gridToString_witness :
    WellFormed emptyGrid ∧ CellsInRange emptyGrid ∧
      stringToGrid (gridToString emptyGrid) = emptyGrid :=
  ⟨by decide, by decide,
    stringToGrid_gridToString emptyGrid (by decide) (by decide)⟩

/-! ### Coordinate model (`coord.ts`) and annotated cells (`gameStore.ts` / `types.ts`) -/

/-- `Coord` from `coord.ts`. The constructor's range check (`throw` outside
`[0,9)`) is carried as hypotheses at the call sites we embed. -/
structure Coord where
  row : Nat
  col : Nat
deriving DecidableEq, Repr

/-- `get index()`: linear index `row * 9 + col`. -/
def Coord.index (p : Coord) : Nat := p.row * GRID_SIZE + p.col

/-- `get boxOrigin()`. -/
def Coord.boxOrigin (p : Coord) : Coord :=
  ⟨p.row / BOX_SIZE * BOX_SIZE, p.col / BOX_SIZE * BOX_SIZE⟩

/-- `withRow`. -/
def Coord.withRow (p : Coord) (r : Nat) : Coord := ⟨r, p.col⟩

/-- `withCol`. -/
def Coord.withCol (p : Coord) (c : Nat) : Coord := ⟨p.row, c⟩

/-- `Group` from `constants.ts`. -/
inductive Group where
  | row : Group
  | column : Group
  | box : Group
deriving DecidableEq

/-- `coordsFor(group, skips)` from `coord.ts`: the 9 cells of the group
through `this`, minus the coordinates whose linear index is in `skips`. -/
def Coord.coordsFor (p : Coord) (group : Group) (skips : List Coord) : List Coord :=
  let skipIdx := skips.map Coord.index
  match group with
  | .row =>
      ((List.range GRID_SIZE).filter
        (fun c => !skipIdx.contains (p.row * GRID_SIZE + c))).map p.withCol
  | .column =>
      ((List.range GRID_SIZE).filter
        (fun r => !skipIdx.contains (r * GRID_SIZE + p.col))).map p.withRow
  | .box =>
      ((List.range BOX_SIZE).flatMap
        (fun dr => (List.range BOX_SIZE).map
          (fun dc => Coord.mk (p.boxOrigin.row + dr) (p.boxOrigin.col + dc)))).filter
        (fun q => !skipIdx.contains q.index)

/-- The engine-relevant fields of `Cell` (`value`, `notes`) from
`gameStore.ts` / `types.ts`; the UI flags (`isSelected`, `isHighlighted`,
`isInitial`, `isFlashing`) are never read by the strategy code. -/
structure Cell where
  value : Option Nat
  notes : Finset Nat
deriving DecidableEq

instance : Inhabited Cell := ⟨⟨none, ∅⟩⟩

/-- `Cell[][]` grids of the strategy engine. -/
abbrev CGrid := List (List Cell)

/-- Read `grid[r][c]`. -/
def getC (g : CGrid) (r c : Nat) : Cell := (g.getD r []).getD c default

/-- Write `grid[r][c] = cell`. -/
def setC (g : CGrid) (r c : Nat) (cell : Cell) : CGrid :=
  g.set r ((g.getD r []).set c cell)

/-- A 9×9 matrix of cells. -/
def CWellFormed (g : CGrid) : Prop :=
  g.length = GRID_SIZE ∧ ∀ row ∈ g, row.length = GRID_SIZE

instance : DecidablePred CWellFormed := fun g => by
  unfold CWellFormed; infer_instance

theorem getC_setC_self {g : CGrid} {r c : Nat} (cell : Cell)
    (hg : CWellFormed g) (hr : r < GRID_SIZE) (hc : c < GRID_SIZE) :
    getC (setC g r c cell) r c = cell := by
  have hrlt : r < g.length := by rw [hg.1]; exact hr
  have hrow : (g.getD r []).length = GRID_SIZE :=
    hg.2 _ (getD_mem_of_lt g [] hrlt)
  unfold getC setC
  rw [getD_set_self hrlt, getD_set_self (by rw [hrow]; exact hc)]

theorem getC_setC_ne {g : CGrid} {r c r' c' : Nat} (cell : Cell)
    (h : ¬(r = r' ∧ c = c')) :
    getC (setC g r c cell) r' c' = getC g r' c' := by
  unfold getC setC
  by_cases hrr : r = r'
  · subst hrr
    have hcc : c ≠ c' := fun hc => h ⟨rfl, hc⟩
    by_cases hrl : r < g.length
    · rw [getD_set_self hrl, getD_set_ne hcc]
    · rw [List.set_eq_of_length_le (by omega)]
  · rw [getD_set_ne hrr]

theorem cWellFormed_setC {g : CGrid} {r c : Nat} (cell : Cell)
    (hg : CWellFormed g) : CWellFormed (setC g r c cell) := by
  rcases hg with ⟨hlen, hrows⟩
  by_cases hrl : r < g.length
  · refine ⟨by simp [setC, hlen], ?_⟩
    intro row hrow
    rcases List.mem_or_eq_of_mem_set hrow with h | h
    · exact hrows _ h
    · subst h
      simp only [List.length_set]
      exact hrows _ (getD_mem_of_lt g [] hrl)
  · unfold setC
    rw [List.set_eq_of_length_le (by omega)]
    exact ⟨hlen, hrows⟩

/-! ### Naked-pair finders (`solverStrategies.ts`) -/

/-- The match test of the finders: the candidate cell has exactly two notes
(`notes.size !== 2 → continue`) and its notes minus the anchor's notes are
empty (`difference(...).size === 0`). -/
def pairMatch (anchor cand : Cell) : Bool :=
  cand.notes.card == 2 && (cand.notes \ anchor.notes).card == 0

/-- `getNakedPairInRow`: scan columns `col+1 … 8` of the anchor's row and
return the first matching cell. -/
def getNakedPairInRow (g : CGrid) (pos : Coord) : Option Coord :=
  ((List.range' (pos.col + 1) (GRID_SIZE - (pos.col + 1))).find?
    (fun c => pairMatch (getC g pos.row pos.col) (getC g pos.row c))).map pos.withCol

/-- `getNakedPairInColumn`: scan rows `row+1 … 8` of the anchor's column. -/
def getNakedPairInColumn (g : CGrid) (pos : Coord) : Option Coord :=
  ((List.range' (pos.row + 1) (GRID_SIZE - (pos.row + 1))).find?
    (fun r => pairMatch (getC g pos.row pos.col) (getC g r pos.col))).map pos.withRow

/-- The double loop of `getNakedPairInBox`: the anchor's box, row-major. -/
def boxScanCells (pos : Coord) : List Coord :=
  (List.range BOX_SIZE).flatMap
    (fun dr => (List.range BOX_SIZE).map
      (fun dc => Coord.mk (pos.boxOrigin.row + dr) (pos.boxOrigin.col + dc)))

/-- `getNakedPairInBox`: scan the box, skipping the anchor and every cell at
or before it (`(r === row && c <= col) || r < row`), and return the first
matching cell. -/
def getNakedPairInBox (g : CGrid) (pos : Coord) : Option Coord :=
  (boxScanCells pos).find?
    (fun q => !((q.row == pos.row && q.col ≤ pos.col) || q.row < pos.row)
      && pairMatch (getC g pos.row pos.col) (getC g q.row q.col))

/-- A 9×9 grid of fresh cells (no value, no notes). -/
def emptyCGrid : CGrid := List.replicate GRID_SIZE (List.replicate GRID_SIZE default)

/-- A grid whose anchor `(0,0)` carries the three notes `{1,2,3}` while
`(0,1)` carries the two notes `{1,2}`. -/
def threeNoteAnchorGrid : CGrid :=
  setC (setC emptyCGrid 0 0 ⟨none, {1, 2, 3}⟩) 0 1 ⟨none, {1, 2}⟩

/-- **C5, counterexample.** The finders do not check the anchor's note count:
with anchor notes `{1,2,3}` at `(0,0)` and notes `{1,2}` at `(0,1)`,
`getNakedPairInRow` reports the pair `(0,1)` although the two cells do not
have the same two-element note set. -/
theorem nakedPairFinder_unequal_notes :
    getNakedPairInRow threeNoteAnchorGrid ⟨0, 0⟩ = some ⟨0, 1⟩ ∧
      (getC threeNoteAnchorGrid 0 1).notes.card = 2 ∧
      (getC threeNoteAnchorGrid 0 0).notes ≠ (getC threeNoteAnchorGrid 0 1).notes := by
  decide

theorem pairMatch_eq_notes {anchor cand : Cell}
    (hcard : anchor.notes.card = 2) (h : pairMatch anchor cand = true) :
    cand.notes = anchor.notes ∧ cand.notes.card = 2 := by
  unfold pairMatch at h
  rw [Bool.and_eq_true] at h
  rcases h with ⟨h2, hdiff⟩
  have h2' : cand.notes.card = 2 := by simpa using h2
  have hsub : cand.notes ⊆ anchor.notes := by
    rw [← Finset.sdiff_eq_empty_iff_subset]
    exact Finset.card_eq_zero.mp (by simpa using hdiff)
  exact ⟨Finset.eq_of_subset_of_card_le hsub (by omega), h2'⟩

/-- **C5, amended.** Provided the anchor cell's note set has exactly two
elements (as its caller `processNakedPairs` guarantees), whenever a
naked-pair finder returns a coordinate `q`, the cell at `q` has exactly the
anchor's two-element note set. -/
theorem nakedPairFinder_same_notes (g : CGrid) (pos : Coord)
    (hcard : (getC g pos.row pos.col).notes.card = 2) :
    (∀ q, getNakedPairInRow g pos = some q →
      (getC g q.row q.col).notes = (getC g pos.row pos.col).notes ∧
        (getC g q.row q.col).notes.card = 2) ∧
    (∀ q, getNakedPairInColumn g pos = some q →
      (getC g q.row q.col).notes = (getC g pos.row pos.col).notes ∧
        (getC g q.row q.col).notes.card = 2) ∧
    (∀ q, getNakedPairInBox g pos = some q →
      (getC g q.row q.col).notes = (getC g pos.row pos.col).notes ∧
        (getC g q.row q.col).notes.card = 2) := by
  refine ⟨?_, ?_, ?_⟩
  · intro q hq
    unfold getNakedPairInRow at hq
    rcases Option.map_eq_some'.mp hq with ⟨c, hfind, hqc⟩
    have hp := List.find?_some hfind
    subst hqc
    exact pairMatch_eq_notes hcard hp
  · intro q hq
    unfold getNakedPairInColumn at hq
    rcases Option.map_eq_some'.mp hq with ⟨r, hfind, hqr⟩
    have hp := List.find?_some hfind
    subst hqr
    exact pairMatch_eq_notes hcard hp
  · intro q hq
    unfold getNakedPairInBox at hq
    have hp := List.find?_some hq
    rw [Bool.and_eq_true] at hp
    exact pairMatch_eq_notes hcard hp.2

/-- A grid whose cells `(0,0)` and `(0,1)` both carry the notes `{1,2}`. -/
def truePairGrid : CGrid :=
  setC (setC emptyCGrid 0 0 ⟨none, {1, 2}⟩) 0 1 ⟨none, {1, 2}⟩

/-- Witness for the amended C5 at a concrete grid. -/
theorem nakedPairFinder_same_notes_witness :
    (getC truePairGrid 0 0).notes.card = 2 ∧
      (getC truePairGrid 0 1).notes = (getC truePairGrid 0 0).notes :=
  ⟨by decide,
    ((nakedPairFinder_same_notes truePairGrid ⟨0, 0⟩ (by decide)).1 ⟨0, 1⟩ (by decide)).1⟩

theorem mem_range_scan {s c bound : Nat} :
    c ∈ List.range' s (bound - s) ↔ s ≤ c ∧ c < bound := by
  rw [List.mem_range'_1]
  omega

/-- **C10.** The naked-pair finders search only forward from the anchor:
a row result shares the row and has a strictly greater column, a column
result shares the column and has a strictly greater row, a box result lies
in the anchor's box strictly after the anchor in row-major order; and each
finder returns `none` exactly when no cell after the anchor in its group
matches the two-note test. -/
theorem nakedPairFinders_forward (g : CGrid) (pos : Coord) :
    (∀ q, getNakedPairInRow g pos = some q →
      q.row = pos.row ∧ pos.col < q.col ∧ q.col < GRID_SIZE) ∧
    (getNakedPairInRow g pos = none ↔
      ∀ c, pos.col < c → c < GRID_SIZE →
        pairMatch (getC g pos.row pos.col) (getC g pos.row c) = false) ∧
    (∀ q, getNakedPairInColumn g pos = some q →
      q.col = pos.col ∧ pos.row < q.row ∧ q.row < GRID_SIZE) ∧
    (getNakedPairInColumn g pos = none ↔
      ∀ r, pos.row < r → r < GRID_SIZE →
        pairMatch (getC g pos.row pos.col) (getC g r pos.col) = false) ∧
    (∀ q, getNakedPairInBox g pos = some q →
      q.boxOrigin = pos.boxOrigin ∧
        (pos.row < q.row ∨ (q.row = pos.row ∧ pos.col < q.col))) ∧
    (getNakedPairInBox g pos = none ↔
      ∀ q ∈ boxScanCells pos,
        (pos.row < q.row ∨ (q.row = pos.row ∧ pos.col < q.col)) →
          pairMatch (getC g pos.row pos.col) (getC g q.row q.col) = false) := by
  have hskip : ∀ q : Coord,
      (!((q.row == pos.row && q.col ≤ pos.col) || q.row < pos.row)) = true ↔
        (pos.row < q.row ∨ (q.row = pos.row ∧ pos.col < q.col)) := by
    intro q
    simp only [Bool.not_eq_true', Bool.or_eq_false_iff, Bool.and_eq_false_iff,
      beq_eq_false_iff_ne, ne_eq, decide_eq_false_iff_not, not_lt, not_le]
    constructor
    · rintro ⟨h1, h2⟩
      rcases h1 with h1 | h1
      · rcases Nat.lt_or_ge pos.row q.row with h | h
        · exact Or.inl h
        · exact Or.inr ⟨by omega, by omega⟩
      · omega
    · rintro (h | ⟨h1, h2⟩)
      · exact ⟨Or.inl (by omega), by omega⟩
      · exact ⟨Or.inr (by omega), by omega⟩
  refine ⟨?_, ?_, ?_, ?_, ?_, ?_⟩
  · intro q hq
    unfold getNakedPairInRow at hq
    rcases Option.map_eq_some'.mp hq with ⟨c, hfind, hqc⟩
    have hmem := List.mem_of_find?_eq_some hfind
    rw [mem_range_scan] at hmem
    subst hqc
    exact ⟨rfl, Nat.lt_of_succ_le hmem.1, hmem.2⟩
  · unfold getNakedPairInRow
    rw [Option.map_eq_none', List.find?_eq_none]
    constructor
    · intro h c h1 h2
      have := h c (mem_range_scan.mpr ⟨by omega, h2⟩)
      simpa using this
    · intro h c hc
      rw [mem_range_scan] at hc
      simp [h c (by omega) hc.2]
  · intro q hq
    unfold getNakedPairInColumn at hq
    rcases Option.map_eq_some'.mp hq with ⟨r, hfind, hqr⟩
    have hmem := List.mem_of_find?_eq_some hfind
    rw [mem_range_scan] at hmem
    subst hqr
    exact ⟨rfl, Nat.lt_of_succ_le hmem.1, hmem.2⟩
  · unfold getNakedPairInColumn
    rw [Option.map_eq_none', List.find?_eq_none]
    constructor
    · intro h r h1 h2
      have := h r (mem_range_scan.mpr ⟨by omega, h2⟩)
      simpa using this
    · intro h r hr
      rw [mem_range_scan] at hr
      simp [h r (by omega) hr.2]
  · intro q hq
    have hmem := List.mem_of_find?_eq_some hq
    have hp := List.find?_some hq
    rw [Bool.and_eq_true] at hp
    have hafter := hp.1
    have hafter' := (hskip q).mp hafter
    refine ⟨?_, hafter'⟩
    unfold boxScanCells at hmem
    simp only [List.mem_flatMap, List.mem_map, List.mem_range] at hmem
    rcases hmem with ⟨dr, hdr, dc, hdc, hq'⟩
    subst hq'
    unfold Coord.boxOrigin
    have hb3 : BOX_SIZE = 3 := rfl
    rw [hb3] at hdr hdc
    show Coord.mk ((pos.row / BOX_SIZE * BOX_SIZE + dr) / BOX_SIZE * BOX_SIZE)
        ((pos.col / BOX_SIZE * BOX_SIZE + dc) / BOX_SIZE * BOX_SIZE) = _
    have h1 : (pos.row / BOX_SIZE * BOX_SIZE + dr) / BOX_SIZE * BOX_SIZE
        = pos.row / BOX_SIZE * BOX_SIZE := by
      show (pos.row / 3 * 3 + dr) / 3 * 3 = pos.row / 3 * 3
      omega
    have h2 : (pos.col / BOX_SIZE * BOX_SIZE + dc) / BOX_SIZE * BOX_SIZE
        = pos.col / BOX_SIZE * BOX_SIZE := by
      show (pos.col / 3 * 3 + dc) / 3 * 3 = pos.col / 3 * 3
      omega
    rw [h1, h2]
  · unfold getNakedPairInBox
    rw [List.find?_eq_none]
    constructor
    · intro h q hmem hafter
      have hq := h q hmem
      rw [Bool.and_eq_true] at hq
      by_contra hcontra
      rw [Bool.not_eq_false] at hcontra
      exact hq ⟨(hskip q).mpr hafter, hcontra⟩
    · intro h q hmem
      rw [Bool.and_eq_true]
      rintro ⟨hA, hB⟩
      have hafter := (hskip q).mp hA
      rw [h q hmem hafter] at hB
      cases hB

/-! ### Note removal (`solverStrategies.ts`) -/

/-- `removeNotesFromCells`: delete `notes` from every *empty* cell among
`targets`, returning the updated grid and the total number of notes
actually removed.  The inner `for (const n of notes) if (delete n) removed++`
loop deletes `|cell.notes ∩ notes|` notes and leaves `cell.notes \ notes`. -/
def removeNotesFromCells (g : CGrid) (targets : List Coord) (notes : Finset Nat) :
    CGrid × Nat :=
  targets.foldl
    (fun acc t =>
      if (getC acc.1 t.row t.col).value ≠ none then acc
      else
        (setC acc.1 t.row t.col
            ⟨(getC acc.1 t.row t.col).value, (getC acc.1 t.row t.col).notes \ notes⟩,
          acc.2 + ((getC acc.1 t.row t.col).notes ∩ notes).card))
    (g, 0)

/-- The grid component of one removal step. -/
def removeNoteStep (notes : Finset Nat) (g : CGrid) (t : Coord) : CGrid :=
  if (getC g t.row t.col).value ≠ none then g
  else
    setC g t.row t.col
      ⟨(getC g t.row t.col).value, (getC g t.row t.col).notes \ notes⟩

/-- The grid component of `removeNotesFromCells`. -/
def removeNotesGrid (notes : Finset Nat) (g : CGrid) (targets : List Coord) : CGrid :=
  targets.foldl (removeNoteStep notes) g

theorem fst_removeNotesFromCells (g : CGrid) (targets : List Coord) (notes : Finset Nat) :
    (removeNotesFromCells g targets notes).1 = removeNotesGrid notes g targets := by
  suffices h : ∀ k, ((targets.foldl
      (fun acc t =>
        if (getC acc.1 t.row t.col).value ≠ none then acc
        else
          (setC acc.1 t.row t.col
              ⟨(getC acc.1 t.row t.col).value, (getC acc.1 t.row t.col).notes \ notes⟩,
            acc.2 + ((getC acc.1 t.row t.col).notes ∩ notes).card))
      (g, k)).1 = removeNotesGrid notes g targets) by
    exact h 0
  induction targets generalizing g with
  | nil => intro k; rfl
  | cons t ts ih =>
    intro k
    rw [List.foldl_cons]
    unfold removeNotesGrid
    rw [List.foldl_cons]
    by_cases h : (getC g t.row t.col).value ≠ none
    · rw [if_pos h, ih g k]
      have hstep : removeNoteStep notes g t = g := by
        unfold removeNoteStep
        rw [if_pos h]
      rw [hstep]
      rfl
    · rw [if_neg h, ih _ _]
      have hstep : removeNoteStep notes g t
          = setC g t.row t.col
              ⟨(getC g t.row t.col).value, (getC g t.row t.col).notes \ notes⟩ := by
        unfold removeNoteStep
        rw [if_neg h]
      rw [hstep]
      rfl

theorem removeNotesGrid_value (notes : Finset Nat) (targets : List Coord) (g : CGrid)
    (hwf : CWellFormed g) (hb : ∀ t ∈ targets, t.row < GRID_SIZE ∧ t.col < GRID_SIZE) :
    ∀ r c, (getC (removeNotesGrid notes g targets) r c).value = (getC g r c).value := by
  induction targets generalizing g with
  | nil => intro r c; rfl
  | cons t ts ih =>
    intro r c
    have hbt := hb t (List.mem_cons_self t ts)
    have hbs : ∀ u ∈ ts, u.row < GRID_SIZE ∧ u.col < GRID_SIZE :=
      fun u hu => hb u (List.mem_cons_of_mem t hu)
    unfold removeNotesGrid
    rw [List.foldl_cons]
    have hwf' : CWellFormed (removeNoteStep notes g t) := by
      unfold removeNoteStep
      split
      · exact hwf
      · exact cWellFormed_setC _ hwf
    rw [show (ts.foldl (removeNoteStep notes) (removeNoteStep notes g t))
        = removeNotesGrid notes (removeNoteStep notes g t) ts from rfl]
    rw [ih _ hwf' hbs]
    unfold removeNoteStep
    split
    · rfl
    · by_cases heq : t.row = r ∧ t.col = c
      · rw [heq.1, heq.2] at hbt ⊢
        rw [getC_setC_self _ hwf hbt.1 hbt.2]
      · rw [getC_setC_ne _ heq]

theorem removeNotesGrid_wf (notes : Finset Nat) (targets : List Coord) (g : CGrid)
    (hwf : CWellFormed g) : CWellFormed (removeNotesGrid notes g targets) := by
  induction targets generalizing g with
  | nil => exact hwf
  | cons t ts ih =>
    unfold removeNotesGrid
    rw [List.foldl_cons]
    apply ih
    unfold removeNoteStep
    split
    · exact hwf
    · exact cWellFormed_setC _ hwf

theorem removeNotesGrid_notes_subset (notes : Finset Nat) (targets : List Coord) (g : CGrid)
    (hwf : CWellFormed g) (hb : ∀ t ∈ targets, t.row < GRID_SIZE ∧ t.col < GRID_SIZE) :
    ∀ r c, (getC (removeNotesGrid notes g targets) r c).notes ⊆ (getC g r c).notes := by
  induction targets generalizing g with
  | nil => intro r c; exact Finset.Subset.refl _
  | cons t ts ih =>
    intro r c
    have hbt := hb t (List.mem_cons_self t ts)
    have hbs : ∀ u ∈ ts, u.row < GRID_SIZE ∧ u.col < GRID_SIZE :=
      fun u hu => hb u (List.mem_cons_of_mem t hu)
    unfold removeNotesGrid
    rw [List.foldl_cons]
    have hwf' : CWellFormed (removeNoteStep notes g t) := by
      unfold removeNoteStep
      split
      · exact hwf
      · exact cWellFormed_setC _ hwf
    refine Finset.Subset.trans (ih (removeNoteStep notes g t) hwf' hbs r c) ?_
    unfold removeNoteStep
    split
    · exact Finset.Subset.refl _
    · by_cases heq : t.row = r ∧ t.col = c
      · rw [heq.1, heq.2] at hbt ⊢
        rw [getC_setC_self _ hwf hbt.1 hbt.2]
        exact Finset.sdiff_subset
      · rw [getC_setC_ne _ heq]

theorem removeNotesGrid_untouched (notes : Finset Nat) (targets : List Coord) (g : CGrid)
    {r c : Nat} (h : ∀ t ∈ targets, ¬(t.row = r ∧ t.col = c)) :
    getC (removeNotesGrid notes g targets) r c = getC g r c := by
  induction targets generalizing g with
  | nil => rfl
  | cons t ts ih =>
    unfold removeNotesGrid
    rw [List.foldl_cons]
    rw [show (ts.foldl (removeNoteStep notes) (removeNoteStep notes g t))
        = removeNotesGrid notes (removeNoteStep notes g t) ts from rfl]
    rw [ih _ (fun u hu => h u (List.mem_cons_of_mem t hu))]
    unfold removeNoteStep
    split
    · rfl
    · exact getC_setC_ne _ (h t (List.mem_cons_self t ts))

theorem removeNotesGrid_removed (notes : Finset Nat) (targets : List Coord) (g : CGrid)
    (hwf : CWellFormed g) (hb : ∀ t ∈ targets, t.row < GRID_SIZE ∧ t.col < GRID_SIZE) :
    ∀ t ∈ targets, (getC g t.row t.col).value = none →
      ∀ v ∈ notes, v ∉ (getC (removeNotesGrid notes g targets) t.row t.col).notes := by
  induction targets generalizing g with
  | nil => intro t ht; cases ht
  | cons u ts ih =>
    intro t ht hempty v hv
    have hbu := hb u (List.mem_cons_self u ts)
    have hbs : ∀ w ∈ ts, w.row < GRID_SIZE ∧ w.col < GRID_SIZE :=
      fun w hw => hb w (List.mem_cons_of_mem u hw)
    have hwf' : CWellFormed (removeNoteStep notes g u) := by
      unfold removeNoteStep
      split
      · exact hwf
      · exact cWellFormed_setC _ hwf
    unfold removeNotesGrid
    rw [List.foldl_cons]
    rw [show (ts.foldl (removeNoteStep notes) (removeNoteStep notes g u))
        = removeNotesGrid notes (removeNoteStep notes g u) ts from rfl]
    rcases List.mem_cons.mp ht with heq | hmem
    · subst heq
      by_cases hins : t ∈ ts
      · have hempty' : (getC (removeNoteStep notes g t) t.row t.col).value = none := by
          unfold removeNoteStep
          split
          · exact hempty
          · rw [getC_setC_self _ hwf hbu.1 hbu.2]
            exact hempty
        exact ih _ hwf' hbs t hins hempty' v hv
      · have hun : getC (removeNotesGrid notes (removeNoteStep notes g t) ts) t.row t.col
            = getC (removeNoteStep notes g t) t.row t.col := by
          apply removeNotesGrid_untouched
          intro w hw hcontra
          apply hins
          have hwt : w = t := by
            cases w
            cases t
            simp only [Coord.mk.injEq]
            exact hcontra
          rwa [← hwt]
        rw [hun]
        unfold removeNoteStep
        rw [if_neg (fun hne => hne hempty), getC_setC_self _ hwf hbu.1 hbu.2]
        intro hmemv
        rw [Finset.mem_sdiff] at hmemv
        exact hmemv.2 hv
    · have hempty' : (getC (removeNoteStep notes g u) t.row t.col).value = none := by
        unfold removeNoteStep
        split
        · exact hempty
        · by_cases heq2 : u.row = t.row ∧ u.col = t.col
          · rw [heq2.1, heq2.2] at hbu ⊢
            rw [getC_setC_self _ hwf hbu.1 hbu.2]
            exact hempty
          · rw [getC_setC_ne _ heq2]
            exact hempty
      exact ih _ hwf' hbs t hmem hempty' v hv

/-! ### `coordsFor` characterization -/

theorem contains_iff_mem_nat {l : List Nat} {a : Nat} : l.contains a = true ↔ a ∈ l := by
  simp

theorem coordsFor_bounded {p : Coord} (grp : Group) (skips : List Coord)
    (hr : p.row < GRID_SIZE) (hc : p.col < GRID_SIZE) :
    ∀ t ∈ p.coordsFor grp skips, t.row < GRID_SIZE ∧ t.col < GRID_SIZE := by
  intro t ht
  cases grp with
  | row =>
    unfold Coord.coordsFor at ht
    simp only [List.mem_map, List.mem_filter, List.mem_range] at ht
    rcases ht with ⟨c, ⟨hclt, _⟩, hrfl⟩
    subst hrfl
    exact ⟨hr, hclt⟩
  | column =>
    unfold Coord.coordsFor at ht
    simp only [List.mem_map, List.mem_filter, List.mem_range] at ht
    rcases ht with ⟨r, ⟨hrlt, _⟩, hrfl⟩
    subst hrfl
    exact ⟨hrlt, hc⟩
  | box =>
    unfold Coord.coordsFor at ht
    simp only [List.mem_filter, List.mem_flatMap, List.mem_map, List.mem_range] at ht
    rcases ht with ⟨⟨dr, hdr, dc, hdc, hrfl⟩, _⟩
    subst hrfl
    unfold Coord.boxOrigin
    have hr' : p.row < 9 := hr
    have hc' : p.col < 9 := hc
    have hdr' : dr < 3 := hdr
    have hdc' : dc < 3 := hdc
    constructor
    · show p.row / 3 * 3 + dr < 9
      omega
    · show p.col / 3 * 3 + dc < 9
      omega

theorem coordsFor_skip {p : Coord} (grp : Group) (skips : List Coord) :
    ∀ t ∈ p.coordsFor grp skips, t.index ∉ skips.map Coord.index := by
  intro t ht
  cases grp with
  | row =>
    unfold Coord.coordsFor at ht
    simp only [List.mem_map, List.mem_filter, List.mem_range] at ht
    rcases ht with ⟨c, ⟨_, hfilt⟩, hrfl⟩
    subst hrfl
    rw [Bool.not_eq_true'] at hfilt
    intro hmem
    have hmem' : (skips.map Coord.index).contains (p.row * GRID_SIZE + c) = true :=
      contains_iff_mem_nat.mpr hmem
    rw [hmem'] at hfilt
    cases hfilt
  | column =>
    unfold Coord.coordsFor at ht
    simp only [List.mem_map, List.mem_filter, List.mem_range] at ht
    rcases ht with ⟨r, ⟨_, hfilt⟩, hrfl⟩
    subst hrfl
    rw [Bool.not_eq_true'] at hfilt
    intro hmem
    have hmem' : (skips.map Coord.index).contains (r * GRID_SIZE + p.col) = true :=
      contains_iff_mem_nat.mpr hmem
    rw [hmem'] at hfilt
    cases hfilt
  | box =>
    unfold Coord.coordsFor at ht
    simp only [List.mem_filter] at ht
    rcases ht with ⟨_, hfilt⟩
    rw [Bool.not_eq_true'] at hfilt
    intro hmem
    have hmem' : (skips.map Coord.index).contains t.index = true :=
      contains_iff_mem_nat.mpr hmem
    rw [hmem'] at hfilt
    cases hfilt

theorem coordsFor_row_mem {p : Coord} (skips : List Coord) {c : Nat}
    (hclt : c < GRID_SIZE)
    (hnot : p.row * GRID_SIZE + c ∉ skips.map Coord.index) :
    p.withCol c ∈ p.coordsFor Group.row skips := by
  unfold Coord.coordsFor
  simp only [List.mem_map, List.mem_filter, List.mem_range]
  refine ⟨c, ⟨hclt, ?_⟩, rfl⟩
  rw [Bool.not_eq_true', Bool.eq_false_iff]
  intro hcontra
  exact hnot (contains_iff_mem_nat.mp hcontra)

theorem coordsFor_box_mem {p : Coord} (skips : List Coord) {r' c' : Nat}
    (hr9 : r' < GRID_SIZE) (hc9 : c' < GRID_SIZE)
    (hbr : r' / BOX_SIZE = p.row / BOX_SIZE) (hbc : c' / BOX_SIZE = p.col / BOX_SIZE)
    (hnot : (Coord.mk r' c').index ∉ skips.map Coord.index) :
    Coord.mk r' c' ∈ p.coordsFor Group.box skips := by
  unfold Coord.coordsFor
  simp only [List.mem_filter, List.mem_flatMap, List.mem_map, List.mem_range]
  constructor
  · refine ⟨r' % BOX_SIZE, ?_, c' % BOX_SIZE, ?_, ?_⟩
    · show r' % 3 < 3
      omega
    · show c' % 3 < 3
      omega
    · unfold Coord.boxOrigin
      have h1 : p.row / BOX_SIZE * BOX_SIZE + r' % BOX_SIZE = r' := by
        show p.row / 3 * 3 + r' % 3 = r'
        have hbr' : r' / 3 = p.row / 3 := hbr
        omega
      have h2 : p.col / BOX_SIZE * BOX_SIZE + c' % BOX_SIZE = c' := by
        show p.col / 3 * 3 + c' % 3 = c'
        have hbc' : c' / 3 = p.col / 3 := hbc
        omega
      rw [h1, h2]
  · rw [Bool.not_eq_true', Bool.eq_false_iff]
    intro hcontra
    exact hnot (contains_iff_mem_nat.mp hcontra)

theorem coordsFor_not_anchor {p : Coord} (grp : Group) {skips : List Coord}
    (hmem : p ∈ skips) :
    ∀ t ∈ p.coordsFor grp skips, ¬(t.row = p.row ∧ t.col = p.col) := by
  intro t ht heq
  apply coordsFor_skip grp skips t ht
  rw [List.mem_map]
  refine ⟨p, hmem, ?_⟩
  unfold Coord.index
  rw [heq.1, heq.2]

/-! ### `processNakedPairs` (`solverStrategies.ts`) -/

/-- `removeNotesInRow` (the `console.log` calls are dropped). -/
def removeNotesInRow (g : CGrid) (anchor : Coord) (skips : List Coord)
    (notes : Finset Nat) : CGrid × Nat :=
  removeNotesFromCells g (anchor.coordsFor Group.row skips) notes

/-- `removeNotesInColumn`. -/
def removeNotesInColumn (g : CGrid) (anchor : Coord) (skips : List Coord)
    (notes : Finset Nat) : CGrid × Nat :=
  removeNotesFromCells g (anchor.coordsFor Group.column skips) notes

/-- `removeNotesInBox`. -/
def removeNotesInBox (g : CGrid) (anchor : Coord) (skips : List Coord)
    (notes : Finset Nat) : CGrid × Nat :=
  removeNotesFromCells g (anchor.coordsFor Group.box skips) notes

/-- `areCellsInSameBox`: fewer than two cells count as "same box", otherwise
every cell's box origin must equal the first cell's. -/
def areCellsInSameBox (cells : List Coord) : Bool :=
  match cells with
  | [] => true
  | c0 :: _ => cells.all (fun c => c.boxOrigin == c0.boxOrigin)

/-- One row/column branch of `processNakedPairs`: on a found pair, remove the
anchor's (live) note set from the rest of the group, and also from the rest
of the box when both pair cells share one.  Returns (grid, notes removed,
pair found). -/
def lineStep (g : CGrid) (pos : Coord) (grp : Group) (found : Option Coord) :
    CGrid × Nat × Bool :=
  match found with
  | none => (g, 0, false)
  | some pair =>
      let cells := [pos, pair]
      let res := removeNotesFromCells g (pos.coordsFor grp cells)
        (getC g pos.row pos.col).notes
      if areCellsInSameBox cells then
        let res2 := removeNotesFromCells res.1 (pos.coordsFor Group.box cells)
          (getC res.1 pos.row pos.col).notes
        (res2.1, res.2 + res2.2, true)
      else (res.1, res.2, true)

/-- The box branch of `processNakedPairs`. -/
def boxStep (g : CGrid) (pos : Coord) (found : Option Coord) : CGrid × Nat × Bool :=
  match found with
  | none => (g, 0, false)
  | some pair =>
      let res := removeNotesFromCells g (pos.coordsFor Group.box [pos, pair])
        (getC g pos.row pos.col).notes
      (res.1, res.2, true)

/-- `processNakedPairs`: guard on the anchor (empty, exactly two notes), then
run the row, column and box branches in order on the same grid.  The source
reads `cell.notes` through a live reference to the anchor cell; since the
anchor is always in the `skips` list of every removal, its notes are never
mutated, and the embedding reads them from the current grid at each use.
Returns (grid, found, applied). -/
def processNakedPairs (g : CGrid) (pos : Coord) : CGrid × Bool × Bool :=
  if (getC g pos.row pos.col).value ≠ none ∨ (getC g pos.row pos.col).notes.card ≠ 2 then
    (g, false, false)
  else
    let s1 := lineStep g pos Group.row (getNakedPairInRow g pos)
    let s2 := lineStep s1.1 pos Group.column (getNakedPairInColumn s1.1 pos)
    let s3 := boxStep s2.1 pos (getNakedPairInBox s2.1 pos)
    (s3.1, s1.2.2 || s2.2.2 || s3.2.2, decide (0 < s1.2.1 + s2.2.1 + s3.2.1))

/-! ### Step lemmas for the C6 analysis -/

theorem lineStep_wf {g : CGrid} {pos : Coord} (grp : Group) (found : Option Coord)
    (hwf : CWellFormed g) : CWellFormed (lineStep g pos grp found).1 := by
  cases found with
  | none => exact hwf
  | some pair =>
    unfold lineStep
    simp only [fst_removeNotesFromCells]
    split
    · exact removeNotesGrid_wf _ _ _ (removeNotesGrid_wf _ _ _ hwf)
    · exact removeNotesGrid_wf _ _ _ hwf

theorem boxStep_wf {g : CGrid} {pos : Coord} (found : Option Coord)
    (hwf : CWellFormed g) : CWellFormed (boxStep g pos found).1 := by
  cases found with
  | none => exact hwf
  | some pair =>
    unfold boxStep
    simp only [fst_removeNotesFromCells]
    exact removeNotesGrid_wf _ _ _ hwf

theorem lineStep_value {g : CGrid} {pos : Coord} (grp : Group) (found : Option Coord)
    (hwf : CWellFormed g) (hr : pos.row < GRID_SIZE) (hc : pos.col < GRID_SIZE) :
    ∀ r c, (getC (lineStep g pos grp found).1 r c).value = (getC g r c).value := by
  cases found with
  | none => intro r c; rfl
  | some pair =>
    intro r c
    unfold lineStep
    simp only [fst_removeNotesFromCells]
    split
    · rw [removeNotesGrid_value _ _ _ (removeNotesGrid_wf _ _ _ hwf)
        (coordsFor_bounded Group.box _ hr hc),
        removeNotesGrid_value _ _ _ hwf (coordsFor_bounded grp _ hr hc)]
    · rw [removeNotesGrid_value _ _ _ hwf (coordsFor_bounded grp _ hr hc)]

theorem boxStep_value {g : CGrid} {pos : Coord} (found : Option Coord)
    (hwf : CWellFormed g) (hr : pos.row < GRID_SIZE) (hc : pos.col < GRID_SIZE) :
    ∀ r c, (getC (boxStep g pos found).1 r c).value = (getC g r c).value := by
  cases found with
  | none => intro r c; rfl
  | some pair =>
    intro r c
    unfold boxStep
    simp only [fst_removeNotesFromCells]
    rw [removeNotesGrid_value _ _ _ hwf (coordsFor_bounded Group.box _ hr hc)]

theorem lineStep_subset {g : CGrid} {pos : Coord} (grp : Group) (found : Option Coord)
    (hwf : CWellFormed g) (hr : pos.row < GRID_SIZE) (hc : pos.col < GRID_SIZE) :
    ∀ r c, (getC (lineStep g pos grp found).1 r c).notes ⊆ (getC g r c).notes := by
  cases found with
  | none => intro r c; exact Finset.Subset.refl _
  | some pair =>
    intro r c
    unfold lineStep
    simp only [fst_removeNotesFromCells]
    split
    · exact Finset.Subset.trans
        (removeNotesGrid_notes_subset _ _ _ (removeNotesGrid_wf _ _ _ hwf)
          (coordsFor_bounded Group.box _ hr hc) r c)
        (removeNotesGrid_notes_subset _ _ _ hwf (coordsFor_bounded grp _ hr hc) r c)
    · exact removeNotesGrid_notes_subset _ _ _ hwf (coordsFor_bounded grp _ hr hc) r c

theorem boxStep_subset {g : CGrid} {pos : Coord} (found : Option Coord)
    (hwf : CWellFormed g) (hr : pos.row < GRID_SIZE) (hc : pos.col < GRID_SIZE) :
    ∀ r c, (getC (boxStep g pos found).1 r c).notes ⊆ (getC g r c).notes := by
  cases found with
  | none => intro r c; exact Finset.Subset.refl _
  | some pair =>
    intro r c
    unfold boxStep
    simp only [fst_removeNotesFromCells]
    exact removeNotesGrid_notes_subset _ _ _ hwf (coordsFor_bounded Group.box _ hr hc) r c

theorem lineStep_anchor {g : CGrid} {pos : Coord} (grp : Group) (found : Option Coord) :
    getC (lineStep g pos grp found).1 pos.row pos.col = getC g pos.row pos.col := by
  cases found with
  | none => rfl
  | some pair =>
    unfold lineStep
    simp only [fst_removeNotesFromCells]
    have hanchor : ∀ (skips : List Coord) (grp' : Group) (notes : Finset Nat) (g' : CGrid),
        pos ∈ skips →
        getC (removeNotesGrid notes g' (pos.coordsFor grp' skips)) pos.row pos.col
          = getC g' pos.row pos.col := by
      intro skips grp' notes g' hmem
      exact removeNotesGrid_untouched _ _ _ (coordsFor_not_anchor grp' hmem)
    split
    · rw [hanchor _ Group.box _ _ (List.mem_cons_self pos [pair]),
        hanchor _ grp _ _ (List.mem_cons_self pos [pair])]
    · rw [hanchor _ grp _ _ (List.mem_cons_self pos [pair])]

theorem boxStep_anchor {g : CGrid} {pos : Coord} (found : Option Coord) :
    getC (boxStep g pos found).1 pos.row pos.col = getC g pos.row pos.col := by
  cases found with
  | none => rfl
  | some pair =>
    unfold boxStep
    simp only [fst_removeNotesFromCells]
    exact removeNotesGrid_untouched _ _ _
      (coordsFor_not_anchor Group.box (List.mem_cons_self pos [pair]))

theorem getNakedPairInRow_props {g : CGrid} {pos q : Coord}
    (h : getNakedPairInRow g pos = some q) :
    q.row = pos.row ∧ pos.col < q.col ∧ q.col < GRID_SIZE := by
  unfold getNakedPairInRow at h
  rcases Option.map_eq_some'.mp h with ⟨c, hfind, hqc⟩
  have hmem := List.mem_of_find?_eq_some hfind
  rw [mem_range_scan] at hmem
  subst hqc
  exact ⟨rfl, Nat.lt_of_succ_le hmem.1, hmem.2⟩

/-- On a found pair, a line step clears the anchor's notes from every empty
target cell of its group removal. -/
theorem lineStep_clears {g : CGrid} {pos : Coord} (grp : Group) (pair : Coord)
    (hwf : CWellFormed g) (hr : pos.row < GRID_SIZE) (hc : pos.col < GRID_SIZE) :
    ∀ t ∈ pos.coordsFor grp [pos, pair], (getC g t.row t.col).value = none →
      ∀ v ∈ (getC g pos.row pos.col).notes,
        v ∉ (getC (lineStep g pos grp (some pair)).1 t.row t.col).notes := by
  intro t ht hempty v hv
  unfold lineStep
  simp only [fst_removeNotesFromCells]
  have hrem := removeNotesGrid_removed (getC g pos.row pos.col).notes
    (pos.coordsFor grp [pos, pair]) g hwf (coordsFor_bounded grp _ hr hc)
    t ht hempty v hv
  split
  · intro hcontra
    exact hrem (removeNotesGrid_notes_subset _ _ _
      (removeNotesGrid_wf _ _ _ hwf) (coordsFor_bounded Group.box _ hr hc) t.row t.col hcontra)
  · exact hrem

/-- On a found pair lying in the anchor's box, a line step also clears the
anchor's notes from every empty target cell of the box removal. -/
theorem lineStep_clears_box {g : CGrid} {pos : Coord} (grp : Group) (pair : Coord)
    (hwf : CWellFormed g) (hr : pos.row < GRID_SIZE) (hc : pos.col < GRID_SIZE)
    (hsame : areCellsInSameBox [pos, pair] = true) :
    ∀ t ∈ pos.coordsFor Group.box [pos, pair], (getC g t.row t.col).value = none →
      ∀ v ∈ (getC g pos.row pos.col).notes,
        v ∉ (getC (lineStep g pos grp (some pair)).1 t.row t.col).notes := by
  intro t ht hempty v hv
  unfold lineStep
  simp only [fst_removeNotesFromCells]
  rw [if_pos hsame]
  have hwf1 : CWellFormed (removeNotesGrid (getC g pos.row pos.col).notes g
      (pos.coordsFor grp [pos, pair])) := removeNotesGrid_wf _ _ _ hwf
  have hanchor1 : getC (removeNotesGrid (getC g pos.row pos.col).notes g
      (pos.coordsFor grp [pos, pair])) pos.row pos.col = getC g pos.row pos.col :=
    removeNotesGrid_untouched _ _ _
      (coordsFor_not_anchor grp (List.mem_cons_self pos [pair]))
  have hempty1 : (getC (removeNotesGrid (getC g pos.row pos.col).notes g
      (pos.coordsFor grp [pos, pair])) t.row t.col).value = none := by
    rw [removeNotesGrid_value _ _ _ hwf (coordsFor_bounded grp _ hr hc)]
    exact hempty
  have hv1 : v ∈ (getC (removeNotesGrid (getC g pos.row pos.col).notes g
      (pos.coordsFor grp [pos, pair])) pos.row pos.col).notes := by
    rw [hanchor1]; exact hv
  exact removeNotesGrid_removed _ _ _ hwf1 (coordsFor_bounded Group.box _ hr hc)
    t ht hempty1 v hv1

/-- On a found pair, the box step clears the anchor's notes from every empty
target cell of the box removal. -/
theorem boxStep_clears {g : CGrid} {pos : Coord} (pair : Coord)
    (hwf : CWellFormed g) (hr : pos.row < GRID_SIZE) (hc : pos.col < GRID_SIZE) :
    ∀ t ∈ pos.coordsFor Group.box [pos, pair], (getC g t.row t.col).value = none →
      ∀ v ∈ (getC g pos.row pos.col).notes,
        v ∉ (getC (boxStep g pos (some pair)).1 t.row t.col).notes := by
  intro t ht hempty v hv
  unfold boxStep
  simp only [fst_removeNotesFromCells]
  exact removeNotesGrid_removed _ _ _ hwf (coordsFor_bounded Group.box _ hr hc)
    t ht hempty v hv

theorem lineStep_found (g : CGrid) (pos : Coord) (grp : Group) (pair : Coord) :
    (lineStep g pos grp (some pair)).2.2 = true := by
  unfold lineStep
  split
  · contradiction
  · dsimp only
    split <;> rfl

/-- **C6, amended.** For every grid and empty anchor `p` with a two-element
note set `{a,b}`, if `processNakedPairs` finds a row pair `q`, then after the
call the pair is reported as found, the anchor's own cell is unchanged,
neither `a` nor `b` appears in the note set of any other empty cell of the
row (the partner `q` excepted), and — when the two paired cells share a box —
neither `a` nor `b` appears in the note set of any other empty cell of that
box.  (The original claim also asserted the *partner's* note set unchanged;
that conjunct is false and is dropped, see the counterexample.) -/
theorem processNakedPairs_row_pair (g : CGrid) (pos q : Coord)
    (hwf : CWellFormed g) (hr : pos.row < GRID_SIZE) (hc : pos.col < GRID_SIZE)
    (hempty : (getC g pos.row pos.col).value = none)
    (hcard : (getC g pos.row pos.col).notes.card = 2)
    (hpair : getNakedPairInRow g pos = some q) :
    (processNakedPairs g pos).2.1 = true ∧
    getC (processNakedPairs g pos).1 pos.row pos.col = getC g pos.row pos.col ∧
    (∀ c < GRID_SIZE, c ≠ pos.col → c ≠ q.col →
      (getC g pos.row c).value = none →
      ∀ v ∈ (getC g pos.row pos.col).notes,
        v ∉ (getC (processNakedPairs g pos).1 pos.row c).notes) ∧
    (areCellsInSameBox [pos, q] = true →
      ∀ r' < GRID_SIZE, ∀ c' < GRID_SIZE,
        r' / BOX_SIZE = pos.row / BOX_SIZE → c' / BOX_SIZE = pos.col / BOX_SIZE →
        ¬(r' = pos.row ∧ c' = pos.col) → ¬(r' = q.row ∧ c' = q.col) →
        (getC g r' c').value = none →
        ∀ v ∈ (getC g pos.row pos.col).notes,
          v ∉ (getC (processNakedPairs g pos).1 r' c').notes) := by
  obtain ⟨hqrow, hqgt, hqlt⟩ := getNakedPairInRow_props hpair
  have hguard : ¬((getC g pos.row pos.col).value ≠ none ∨
      (getC g pos.row pos.col).notes.card ≠ 2) := by
    rintro (h | h)
    · exact h hempty
    · exact h hcard
  have hfound : (processNakedPairs g pos).2.1 = true := by
    unfold processNakedPairs
    rw [if_neg hguard, hpair]
    dsimp only
    rw [lineStep_found]
    rfl
  have hPg : (processNakedPairs g pos).1
      = (boxStep
          (lineStep (lineStep g pos Group.row (some q)).1 pos Group.column
            (getNakedPairInColumn (lineStep g pos Group.row (some q)).1 pos)).1
          pos
          (getNakedPairInBox
            (lineStep (lineStep g pos Group.row (some q)).1 pos Group.column
              (getNakedPairInColumn (lineStep g pos Group.row (some q)).1 pos)).1
            pos)).1 := by
    unfold processNakedPairs
    rw [if_neg hguard, hpair]
  -- abbreviations for the three intermediate grids
  have hwf1 : CWellFormed (lineStep g pos Group.row (some q)).1 :=
    lineStep_wf Group.row _ hwf
  have hwf2 : CWellFormed (lineStep (lineStep g pos Group.row (some q)).1 pos Group.column
      (getNakedPairInColumn (lineStep g pos Group.row (some q)).1 pos)).1 :=
    lineStep_wf Group.column _ hwf1
  -- a note surviving to the final grid survived in the grid after the row step
  have hsub : ∀ r c,
      (getC (processNakedPairs g pos).1 r c).notes ⊆
        (getC (lineStep g pos Group.row (some q)).1 r c).notes := by
    intro r c
    rw [hPg]
    exact Finset.Subset.trans
      (boxStep_subset _ hwf2 hr hc r c)
      (lineStep_subset Group.column _ hwf1 hr hc r c)
  refine ⟨hfound, ?_, ?_, ?_⟩
  · rw [hPg, boxStep_anchor, lineStep_anchor, lineStep_anchor]
  · intro c hclt hcne hcq hemptyc v hv
    have hmem : pos.withCol c ∈ pos.coordsFor Group.row [pos, q] := by
      apply coordsFor_row_mem _ hclt
      intro hcontra
      simp only [List.map_cons, List.map_nil, List.mem_cons, List.mem_singleton,
        List.not_mem_nil] at hcontra
      unfold Coord.index at hcontra
      have h9 : GRID_SIZE = 9 := rfl
      rcases hcontra with h | h | h
      · rw [h9] at h
        omega
      · rw [hqrow, h9] at h
        omega
      · exact h
    have hclear := lineStep_clears Group.row q hwf hr hc (pos.withCol c) hmem
      hemptyc v hv
    intro hcontra
    exact hclear (hsub pos.row c hcontra)
  · intro hsame r' hr9 c' hc9 hbr hbc hnp hnq hemptyc v hv
    have hmem : Coord.mk r' c' ∈ pos.coordsFor Group.box [pos, q] := by
      apply coordsFor_box_mem _ hr9 hc9 hbr hbc
      intro hcontra
      simp only [List.map_cons, List.map_nil, List.mem_cons, List.mem_singleton,
        List.not_mem_nil] at hcontra
      unfold Coord.index at hcontra
      dsimp only at hcontra
      have h9 : GRID_SIZE = 9 := rfl
      rcases hcontra with h | h | h
      · rw [h9] at h
        have hr9' : r' < 9 := hr9
        have hc9' : c' < 9 := hc9
        have hcb : pos.col < 9 := hc
        apply hnp
        constructor <;> omega
      · rw [h9] at h
        have hr9' : r' < 9 := hr9
        have hc9' : c' < 9 := hc9
        have hqc9 : q.col < 9 := hqlt
        apply hnq
        constructor <;> omega
      · exact h
    have hclear := lineStep_clears_box Group.row q hwf hr hc hsame
      (Coord.mk r' c') hmem hemptyc v hv
    intro hcontra
    exact hclear (hsub r' c' hcontra)

/-- A grid with an empty naked pair `{1,2}` at `(0,0)`/`(0,1)` and a *filled*
cell `(1,0)` that still carries leftover notes `{1,2}`. -/
def spoiledPairGrid : CGrid :=
  setC (setC (setC emptyCGrid 0 0 ⟨none, {1, 2}⟩) 0 1 ⟨none, {1, 2}⟩) 1 0 ⟨some 5, {1, 2}⟩

set_option maxRecDepth 4000 in
/-- **C6, counterexample.** The row pair `(0,0)`–`(0,1)` is found, yet after
`processNakedPairs` the *partner* cell `(0,1)` no longer carries its note set
`{1,2}`: the filled cell `(1,0)` with leftover notes is picked up as a
"column pair" in the same box, and the ensuing box removal empties the row
partner's notes.  This falsifies the original claim's conjunct that the two
paired cells' own note sets are unchanged. -/
theorem processNakedPairs_changes_partner :
    getNakedPairInRow spoiledPairGrid ⟨0, 0⟩ = some ⟨0, 1⟩ ∧
    (getC spoiledPairGrid 0 0).value = none ∧
    (getC spoiledPairGrid 0 0).notes = {1, 2} ∧
    (getC spoiledPairGrid 0 1).notes = {1, 2} ∧
    (getC (processNakedPairs spoiledPairGrid ⟨0, 0⟩).1 0 1).notes ≠
      (getC spoiledPairGrid 0 1).notes := by
  decide

/-- Witness for the amended C6 at a concrete grid. -/
theorem processNakedPairs_row_pair_witness :
    CWellFormed truePairGrid ∧
    (processNakedPairs truePairGrid ⟨0, 0⟩).2.1 = true ∧
    getC (processNakedPairs truePairGrid ⟨0, 0⟩).1 0 0 = getC truePairGrid 0 0 :=
  ⟨by decide,
    (processNakedPairs_row_pair truePairGrid ⟨0, 0⟩ ⟨0, 1⟩ (by decide) (by decide)
      (by decide) (by decide) (by decide) (by decide)).1,
    (processNakedPairs_row_pair truePairGrid ⟨0, 0⟩ ⟨0, 1⟩ (by decide) (by decide)
      (by decide) (by decide) (by decide) (by decide)).2.1⟩

/-! ### `applyAutoNotes` (`solverStrategies.ts`) -/

/-- The `canPlace` test of `applyAutoNotes`: `num` does not occur as a value
in any *other* cell of the row, the column, or the box. -/
def canPlace (g : CGrid) (r c num : Nat) : Bool :=
  ((List.range GRID_SIZE).all (fun cc => cc == c || !((getC g r cc).value == some num))) &&
  ((List.range GRID_SIZE).all (fun rr => rr == r || !((getC g rr c).value == some num))) &&
  ((List.range BOX_SIZE).all (fun dr => (List.range BOX_SIZE).all (fun dc =>
    ((r / BOX_SIZE * BOX_SIZE + dr == r) && (c / BOX_SIZE * BOX_SIZE + dc == c)) ||
      !((getC g (r / BOX_SIZE * BOX_SIZE + dr) (c / BOX_SIZE * BOX_SIZE + dc)).value
          == some num))))

/-- The note set `applyAutoNotes` rebuilds for an empty cell: each digit
`num` in 1–9 that passes `canPlace` is added to the cleared set. -/
def autoNotes (g : CGrid) (r c : Nat) : Finset Nat :=
  (Finset.Icc 1 GRID_SIZE).filter (fun num => canPlace g r c num = true)

/-- The row-major coordinate enumeration of the two nested loops. -/
def allCoords : List (Nat × Nat) :=
  (List.range GRID_SIZE).flatMap (fun r => (List.range GRID_SIZE).map (fun c => (r, c)))

/-- One iteration of `applyAutoNotes`: recompute an empty cell's notes. -/
def applyAutoNotesStep (g : CGrid) (rc : Nat × Nat) : CGrid :=
  if (getC g rc.1 rc.2).value = none then
    setC g rc.1 rc.2 ⟨(getC g rc.1 rc.2).value, autoNotes g rc.1 rc.2⟩
  else g

/-- `applyAutoNotes` from `solverStrategies.ts`. -/
def applyAutoNotes (g : CGrid) : CGrid := allCoords.foldl applyAutoNotesStep g

/-- Two cell grids with the same values everywhere. -/
def ValuesAgree (g₁ g₂ : CGrid) : Prop :=
  ∀ r c, (getC g₁ r c).value = (getC g₂ r c).value

theorem canPlace_congr {g₁ g₂ : CGrid} (h : ValuesAgree g₁ g₂) (r c num : Nat) :
    canPlace g₁ r c num = canPlace g₂ r c num := by
  unfold ValuesAgree at h
  unfold canPlace
  simp only [h]

theorem autoNotes_congr {g₁ g₂ : CGrid} (h : ValuesAgree g₁ g₂) (r c : Nat) :
    autoNotes g₁ r c = autoNotes g₂ r c := by
  unfold autoNotes
  apply Finset.filter_congr
  intro x _
  rw [canPlace_congr h]

theorem applyAutoNotesStep_wf {g : CGrid} (rc : Nat × Nat) (hwf : CWellFormed g) :
    CWellFormed (applyAutoNotesStep g rc) := by
  unfold applyAutoNotesStep
  split
  · exact cWellFormed_setC _ hwf
  · exact hwf

theorem applyAutoNotesStep_values {g : CGrid} (rc : Nat × Nat) (hwf : CWellFormed g)
    (hb : rc.1 < GRID_SIZE ∧ rc.2 < GRID_SIZE) :
    ValuesAgree (applyAutoNotesStep g rc) g := by
  intro r c
  unfold applyAutoNotesStep
  split
  · by_cases heq : rc.1 = r ∧ rc.2 = c
    · rw [heq.1, heq.2] at hb ⊢
      rw [getC_setC_self _ hwf hb.1 hb.2]
    · rw [getC_setC_ne _ heq]
  · rfl

/-- The fold invariant behind `applyAutoNotes`. -/
theorem applyAutoNotes_fold (L : List (Nat × Nat)) (g0 g : CGrid)
    (hwf0 : CWellFormed g0) (hb : ∀ rc ∈ L, rc.1 < GRID_SIZE ∧ rc.2 < GRID_SIZE)
    (hvals : ValuesAgree g0 g) :
    CWellFormed (L.foldl applyAutoNotesStep g0) ∧
    ValuesAgree (L.foldl applyAutoNotesStep g0) g ∧
    (∀ r c, (r, c) ∈ L → (getC g r c).value = none →
      (getC (L.foldl applyAutoNotesStep g0) r c).notes = autoNotes g r c) ∧
    (∀ r c, (r, c) ∉ L → getC (L.foldl applyAutoNotesStep g0) r c = getC g0 r c) := by
  induction L generalizing g0 with
  | nil =>
    exact ⟨hwf0, hvals, fun r c h => absurd h (List.not_mem_nil _), fun r c _ => rfl⟩
  | cons rc L ih =>
    have hbrc := hb rc (List.mem_cons_self rc L)
    have hbL : ∀ u ∈ L, u.1 < GRID_SIZE ∧ u.2 < GRID_SIZE :=
      fun u hu => hb u (List.mem_cons_of_mem rc hu)
    have hwf1 : CWellFormed (applyAutoNotesStep g0 rc) := applyAutoNotesStep_wf rc hwf0
    have hvals1 : ValuesAgree (applyAutoNotesStep g0 rc) g :=
      fun r c => (applyAutoNotesStep_values rc hwf0 hbrc r c).trans (hvals r c)
    rw [List.foldl_cons]
    obtain ⟨ihwf, ihvals, ihin, ihout⟩ := ih (applyAutoNotesStep g0 rc) hwf1 hbL hvals1
    refine ⟨ihwf, ihvals, ?_, ?_⟩
    · intro r c hmem hempty
      rcases List.mem_cons.mp hmem with heq | hmemL
      · by_cases hinL : (r, c) ∈ L
        · exact ihin r c hinL hempty
        · rw [ihout r c hinL]
          have hrc : rc = (r, c) := heq.symm
          subst hrc
          unfold applyAutoNotesStep
          rw [if_pos (by rw [hvals r c]; exact hempty)]
          dsimp only
          rw [getC_setC_self _ hwf0 hbrc.1 hbrc.2]
          exact autoNotes_congr (fun r' c' => hvals r' c') r c
      · exact ihin r c hmemL hempty
    · intro r c hmem
      have hne : rc ≠ (r, c) := fun h => hmem (h ▸ List.mem_cons_self rc L)
      have hnotL : (r, c) ∉ L := fun h => hmem (List.mem_cons_of_mem rc h)
      rw [ihout r c hnotL]
      unfold applyAutoNotesStep
      split
      · apply getC_setC_ne
        intro hcontra
        apply hne
        have : rc = (rc.1, rc.2) := rfl
        rw [this, hcontra.1, hcontra.2]
      · rfl

theorem mem_allCoords {r c : Nat} : (r, c) ∈ allCoords ↔ r < GRID_SIZE ∧ c < GRID_SIZE := by
  unfold allCoords
  simp only [List.mem_flatMap, List.mem_map, List.mem_range, Prod.mk.injEq]
  constructor
  · rintro ⟨a, ha, b, hb, h1, h2⟩
    subst h1; subst h2
    exact ⟨ha, hb⟩
  · rintro ⟨hr, hc⟩
    exact ⟨r, hr, c, hc, rfl, rfl⟩

theorem canPlace_iff (g : CGrid) {r c : Nat} (num : Nat)
    (hr : r < GRID_SIZE) (hc : c < GRID_SIZE) :
    canPlace g r c num = true ↔
      ∀ r' < GRID_SIZE, ∀ c' < GRID_SIZE, PeerPos r' c' r c →
        (getC g r' c').value ≠ some num := by
  unfold canPlace
  simp only [Bool.and_eq_true, List.all_eq_true, List.mem_range, Bool.or_eq_true,
    beq_iff_eq, Bool.not_eq_true', beq_eq_false_iff_ne, ne_eq]
  constructor
  · rintro ⟨⟨hrow, hcol⟩, hbox⟩ r' hr' c' hc' hpeer hval
    rcases hpeer with ⟨hne, hshare⟩
    rcases hshare with hsame | hsame | hsame
    · subst hsame
      rcases hrow c' hc' with h | h
      · exact hne ⟨rfl, h⟩
      · exact h hval
    · subst hsame
      rcases hcol r' hr' with h | h
      · exact hne ⟨h, rfl⟩
      · exact h hval
    · have hdr : r' % BOX_SIZE < BOX_SIZE := by
        show r' % 3 < 3
        omega
      have hdc : c' % BOX_SIZE < BOX_SIZE := by
        show c' % 3 < 3
        omega
      have hreq : r / BOX_SIZE * BOX_SIZE + r' % BOX_SIZE = r' := by
        show r / 3 * 3 + r' % 3 = r'
        have h1 : r' / 3 = r / 3 := hsame.1
        omega
      have hceq : c / BOX_SIZE * BOX_SIZE + c' % BOX_SIZE = c' := by
        show c / 3 * 3 + c' % 3 = c'
        have h1 : c' / 3 = c / 3 := hsame.2
        omega
      rcases hbox (r' % BOX_SIZE) hdr (c' % BOX_SIZE) hdc with h | h
      · rw [hreq, hceq] at h
        exact hne ⟨h.1, h.2⟩
      · rw [hreq, hceq] at h
        exact h hval
  · intro h
    refine ⟨⟨?_, ?_⟩, ?_⟩
    · intro cc hcc
      by_cases heq : cc = c
      · exact Or.inl heq
      · refine Or.inr ?_
        intro hval
        exact h r hr cc hcc ⟨fun hcon => heq hcon.2, Or.inl rfl⟩ hval
    · intro rr hrr
      by_cases heq : rr = r
      · exact Or.inl heq
      · refine Or.inr ?_
        intro hval
        exact h rr hrr c hc ⟨fun hcon => heq hcon.1, Or.inr (Or.inl rfl)⟩ hval
    · intro dr hdr dc hdc
      by_cases heq : r / BOX_SIZE * BOX_SIZE + dr = r ∧ c / BOX_SIZE * BOX_SIZE + dc = c
      · exact Or.inl heq
      · refine Or.inr ?_
        intro hval
        have hdr' : dr < 3 := hdr
        have hdc' : dc < 3 := hdc
        have hr'9 : r / BOX_SIZE * BOX_SIZE + dr < GRID_SIZE := by
          show r / 3 * 3 + dr < 9
          have : r < 9 := hr
          omega
        have hc'9 : c / BOX_SIZE * BOX_SIZE + dc < GRID_SIZE := by
          show c / 3 * 3 + dc < 9
          have : c < 9 := hc
          omega
        refine h _ hr'9 _ hc'9 ⟨heq, Or.inr (Or.inr ⟨?_, ?_⟩)⟩ hval
        · show (r / 3 * 3 + dr) / 3 = r / 3
          omega
        · show (c / 3 * 3 + dc) / 3 = c / 3
          omega

/-- **C7.** After `applyAutoNotes`, every empty cell's note set is exactly
the set of digits 1–9 that do not occur as a value in any other cell of its
row, column or box; no cell value changes; and non-empty cells are left
wholly untouched. -/
theorem applyAutoNotes_spec (g : CGrid) (hwf : CWellFormed g) :
    (∀ r c, (getC (applyAutoNotes g) r c).value = (getC g r c).value) ∧
    (∀ r < GRID_SIZE, ∀ c < GRID_SIZE, (getC g r c).value ≠ none →
      getC (applyAutoNotes g) r c = getC g r c) ∧
    (∀ r < GRID_SIZE, ∀ c < GRID_SIZE, (getC g r c).value = none →
      ∀ v, v ∈ (getC (applyAutoNotes g) r c).notes ↔
        (1 ≤ v ∧ v ≤ GRID_SIZE ∧
          ∀ r' < GRID_SIZE, ∀ c' < GRID_SIZE, PeerPos r' c' r c →
            (getC g r' c').value ≠ some v)) := by
  have hb : ∀ rc ∈ allCoords, rc.1 < GRID_SIZE ∧ rc.2 < GRID_SIZE := by
    intro rc hrc
    have : (rc.1, rc.2) ∈ allCoords := by
      have hrc' : rc = (rc.1, rc.2) := rfl
      rwa [hrc'] at hrc
    exact mem_allCoords.mp this
  obtain ⟨hwfF, hvalsF, hinF, houtF⟩ :=
    applyAutoNotes_fold allCoords g g hwf hb (fun r c => rfl)
  refine ⟨hvalsF, ?_, ?_⟩
  · intro r hr c hc hne
    -- a filled cell is never rewritten by any step of the fold
    have : ∀ (L : List (Nat × Nat)) (g0 : CGrid), CWellFormed g0 →
        (∀ rc ∈ L, rc.1 < GRID_SIZE ∧ rc.2 < GRID_SIZE) →
        ValuesAgree g0 g →
        getC (L.foldl applyAutoNotesStep g0) r c = getC g0 r c := by
      intro L
      induction L with
      | nil => intro g0 _ _ _; rfl
      | cons rc L ihL =>
        intro g0 hwf0 hbL hvals0
        rw [List.foldl_cons]
        have hbrc := hbL rc (List.mem_cons_self rc L)
        rw [ihL _ (applyAutoNotesStep_wf rc hwf0)
          (fun u hu => hbL u (List.mem_cons_of_mem rc hu))
          (fun r' c' => (applyAutoNotesStep_values rc hwf0 hbrc r' c').trans (hvals0 r' c'))]
        unfold applyAutoNotesStep
        split
        · next hcond =>
          apply getC_setC_ne
          intro hcontra
          rw [hcontra.1, hcontra.2] at hcond
          rw [hvals0 r c] at hcond
          exact hne hcond
        · rfl
    exact this allCoords g hwf hb (fun r c => rfl)
  · intro r hr c hc hempty v
    unfold applyAutoNotes
    rw [hinF r c (mem_allCoords.mpr ⟨hr, hc⟩) hempty]
    unfold autoNotes
    rw [Finset.mem_filter, Finset.mem_Icc]
    rw [canPlace_iff g v hr hc]
    constructor
    · rintro ⟨⟨h1, h2⟩, h3⟩
      exact ⟨h1, h2, h3⟩
    · rintro ⟨h1, h2, h3⟩
      exact ⟨⟨h1, h2⟩, h3⟩

/-- Witness for C7 at a concrete grid. -/
theorem applyAutoNotes_spec_witness :
    CWellFormed spoiledPairGrid ∧
    (getC (applyAutoNotes spoiledPairGrid) 1 0).value = (getC spoiledPairGrid 1 0).value :=
  ⟨by decide, (applyAutoNotes_spec spoiledPairGrid (by decide)).1 1 0⟩

/-! ### `getLegalValues` and `findMRVCell` (`engine.ts`) -/

/-- Membership of `v` in the `present` set that `getLegalValues` collects:
some cell of the row, the column, or the box holds the value `v`. -/
def presentB (g : Grid) (r c v : Nat) : Bool :=
  ((List.range GRID_SIZE).any
    (fun i => getCell g r i == some v || getCell g i c == some v)) ||
  ((List.range BOX_SIZE).any (fun dr => (List.range BOX_SIZE).any (fun dc =>
    getCell g (r / BOX_SIZE * BOX_SIZE + dr) (c / BOX_SIZE * BOX_SIZE + dc) == some v)))

/-- `getLegalValues` from `engine.ts`: the digits 1–9 not present in the
cell's row, column or box. -/
def getLegalValues (g : Grid) (r c : Nat) : List Nat :=
  (List.range' 1 GRID_SIZE).filter (fun v => !presentB g r c v)

/-- The value the source's `minOptions` variable holds: the stored best
candidate's legal-list length, `GRID_SIZE + 1` while no best is stored. -/
def minOpt : Option (Nat × Nat × List Nat) → Nat
  | none => GRID_SIZE + 1
  | some b => b.2.2.length

/-- The scan of `findMRVCell`, with the two nested row/column loops written
as one row-major index `i` counting up while the fuel `m` counts down
(`i + m = 81` at every call). -/
def mrvGo (g : Grid) : Nat → Nat → Option (Nat × Nat × List Nat) →
    Option (Nat × Nat × List Nat)
  | 0, _, best => best
  | m + 1, i, best =>
      if getCell g (i / GRID_SIZE) (i % GRID_SIZE) = none then
        if (getLegalValues g (i / GRID_SIZE) (i % GRID_SIZE)).length < minOpt best then
          if (getLegalValues g (i / GRID_SIZE) (i % GRID_SIZE)).length = 1 then
            some (i / GRID_SIZE, i % GRID_SIZE,
              getLegalValues g (i / GRID_SIZE) (i % GRID_SIZE))
          else
            mrvGo g m (i + 1) (some (i / GRID_SIZE, i % GRID_SIZE,
              getLegalValues g (i / GRID_SIZE) (i % GRID_SIZE)))
        else mrvGo g m (i + 1) best
      else mrvGo g m (i + 1) best

/-- `findMRVCell` from `engine.ts`. -/
def findMRVCell (g : Grid) : Option (Nat × Nat × List Nat) :=
  mrvGo g BOARD_SIZE 0 none

/-- A valid grid on which `findMRVCell`'s early return at one legal value
hides an empty cell with *zero* legal values: row 0 holds 1–8 after an empty
corner, the cell `(1,8)` holds 9, and row 8 holds 1–8 before the empty cell
`(8,8)`, which therefore has no candidate at all. -/
def mrvTrapGrid : Grid :=
  stringToGrid ("012345678000000009" ++
    "000000000000000000000000000000000000000000000000000000" ++ "123456780").toList

/-- **C4, counterexample.** `findMRVCell` returns the cell `(0,0)` with the
single legal value 9, although the empty cell `(8,8)` has zero legal values,
so the returned cell's candidate count is not the minimum over all empty
cells. -/
theorem findMRVCell_not_minimum :
    ValidG mrvTrapGrid ∧
    findMRVCell mrvTrapGrid = some (0, 0, [9]) ∧
    getCell mrvTrapGrid 8 8 = none ∧
    getLegalValues mrvTrapGrid 8 8 = [] := by
  decide

/-- Any cell has at most `GRID_SIZE` legal values. -/
theorem getLegalValues_length_le (g : Grid) (r c : Nat) :
    (getLegalValues g r c).length ≤ GRID_SIZE := by
  have h := List.length_filter_le (fun v => !presentB g r c v) (List.range' 1 GRID_SIZE)
  simpa using h

/-- The invariant carried by the `findMRVCell` scan once the cells of
row-major index `< i` have been processed: a stored best candidate is an
empty, correctly described cell among them, strictly sharper than every
empty cell scanned before it and at least as sharp as every empty cell
scanned so far; no stored best means no empty cell has been seen. -/
def MrvInv (g : Grid) (i : Nat) : Option (Nat × Nat × List Nat) → Prop
  | none => ∀ r c, r < GRID_SIZE → c < GRID_SIZE → GRID_SIZE * r + c < i →
      getCell g r c ≠ none
  | some (r, c, legal) =>
      r < GRID_SIZE ∧ c < GRID_SIZE ∧ GRID_SIZE * r + c < i ∧
      getCell g r c = none ∧ legal = getLegalValues g r c ∧ legal.length ≠ 1 ∧
      (∀ r' c', r' < GRID_SIZE → c' < GRID_SIZE →
        GRID_SIZE * r' + c' < GRID_SIZE * r + c → getCell g r' c' = none →
        legal.length < (getLegalValues g r' c').length) ∧
      (∀ r' c', r' < GRID_SIZE → c' < GRID_SIZE → GRID_SIZE * r' + c' < i →
        getCell g r' c' = none →
        legal.length ≤ (getLegalValues g r' c').length)

/-- What is true of the value `findMRVCell` finally returns. -/
def MrvOut (g : Grid) (R : Option (Nat × Nat × List Nat)) : Prop :=
  (R = none → ∀ r c, r < GRID_SIZE → c < GRID_SIZE → getCell g r c ≠ none) ∧
  (∀ r c legal, R = some (r, c, legal) →
    r < GRID_SIZE ∧ c < GRID_SIZE ∧ getCell g r c = none ∧
    legal = getLegalValues g r c ∧
    (∀ r' c', r' < GRID_SIZE → c' < GRID_SIZE →
      GRID_SIZE * r' + c' < GRID_SIZE * r + c → getCell g r' c' = none →
      legal.length < (getLegalValues g r' c').length) ∧
    (legal.length ≠ 1 → ∀ r' c', r' < GRID_SIZE → c' < GRID_SIZE →
      getCell g r' c' = none →
      legal.length ≤ (getLegalValues g r' c').length))

theorem mrvGo_succ (g : Grid) (m i : Nat) (best : Option (Nat × Nat × List Nat)) :
    mrvGo g (m + 1) i best =
      if getCell g (i / GRID_SIZE) (i % GRID_SIZE) = none then
        if (getLegalValues g (i / GRID_SIZE) (i % GRID_SIZE)).length < minOpt best then
          if (getLegalValues g (i / GRID_SIZE) (i % GRID_SIZE)).length = 1 then
            some (i / GRID_SIZE, i % GRID_SIZE,
              getLegalValues g (i / GRID_SIZE) (i % GRID_SIZE))
          else
            mrvGo g m (i + 1) (some (i / GRID_SIZE, i % GRID_SIZE,
              getLegalValues g (i / GRID_SIZE) (i % GRID_SIZE)))
        else mrvGo g m (i + 1) best
      else mrvGo g m (i + 1) best := rfl

theorem mrvGo_spec (g : Grid) :
    ∀ m i best, i + m = BOARD_SIZE → MrvInv g i best →
      MrvOut g (mrvGo g m i best) := by
  intro m
  induction m with
  | zero =>
    intro i best hsum hinv
    have hi : i = 81 := hsum
    subst hi
    show MrvOut g best
    cases best with
    | none =>
      refine ⟨fun _ r c hr hc => hinv r c hr hc ?_, fun r c legal heq => Option.noConfusion heq⟩
      have hr9 : r < 9 := hr
      have hc9 : c < 9 := hc
      show 9 * r + c < 81
      omega
    | some b =>
      obtain ⟨rb, cb, Lb⟩ := b
      obtain ⟨hrb, hcb, _, hemp, heqL, hne, hstrict, hle⟩ := hinv
      refine ⟨fun h => Option.noConfusion h, fun r c legal heq => ?_⟩
      rw [Option.some.injEq, Prod.mk.injEq, Prod.mk.injEq] at heq
      obtain ⟨h1, h2, h3⟩ := heq
      subst h1; subst h2; subst h3
      refine ⟨hrb, hcb, hemp, heqL, hstrict, fun _ r' c' hr' hc' hemp' => ?_⟩
      refine hle r' c' hr' hc' ?_ hemp'
      have hr9 : r' < 9 := hr'
      have hc9 : c' < 9 := hc'
      show 9 * r' + c' < 81
      omega
  | succ m ih =>
    intro i best hsum hinv
    have hsum81 : i + (m + 1) = 81 := hsum
    have hi81 : i < 81 := by omega
    have hidx : GRID_SIZE * (i / GRID_SIZE) + i % GRID_SIZE = i := by
      show 9 * (i / 9) + i % 9 = i
      omega
    have hr0 : i / GRID_SIZE < GRID_SIZE := by
      show i / 9 < 9
      omega
    have hc0 : i % GRID_SIZE < GRID_SIZE := by
      show i % 9 < 9
      omega
    have hcoord : ∀ r' c', r' < GRID_SIZE → c' < GRID_SIZE →
        GRID_SIZE * r' + c' = i → r' = i / GRID_SIZE ∧ c' = i % GRID_SIZE := by
      intro r' c' hr' hc' h
      have hr9 : r' < 9 := hr'
      have hc9 : c' < 9 := hc'
      have h' : 9 * r' + c' = i := h
      exact ⟨by show r' = i / 9; omega, by show c' = i % 9; omega⟩
    rw [mrvGo_succ]
    by_cases hcell : getCell g (i / GRID_SIZE) (i % GRID_SIZE) = none
    · rw [if_pos hcell]
      cases best with
      | none =>
        by_cases hlt :
            (getLegalValues g (i / GRID_SIZE) (i % GRID_SIZE)).length < minOpt none
        · rw [if_pos hlt]
          by_cases hone :
              (getLegalValues g (i / GRID_SIZE) (i % GRID_SIZE)).length = 1
          · rw [if_pos hone]
            refine ⟨fun h => Option.noConfusion h, fun r c legal heq => ?_⟩
            rw [Option.some.injEq, Prod.mk.injEq, Prod.mk.injEq] at heq
            obtain ⟨h1, h2, h3⟩ := heq
            subst h1; subst h2; subst h3
            refine ⟨hr0, hc0, hcell, rfl, ?_, fun hne1 => absurd hone hne1⟩
            intro r' c' hr' hc' hlt' hemp'
            exact absurd hemp' (hinv r' c' hr' hc' (by rw [hidx] at hlt'; exact hlt'))
          · rw [if_neg hone]
            refine ih (i + 1) _ (by omega) ?_
            refine ⟨hr0, hc0, by omega, hcell, rfl, hone, ?_, ?_⟩
            · intro r' c' hr' hc' hlt' hemp'
              exact absurd hemp' (hinv r' c' hr' hc' (by rw [hidx] at hlt'; exact hlt'))
            · intro r' c' hr' hc' hlt' hemp'
              rcases Nat.lt_or_ge (GRID_SIZE * r' + c') i with h | h
              · exact absurd hemp' (hinv r' c' hr' hc' h)
              · have heqi : GRID_SIZE * r' + c' = i := by omega
                obtain ⟨hh1, hh2⟩ := hcoord r' c' hr' hc' heqi
                subst hh1; subst hh2
                exact Nat.le_refl _
        · exfalso
          have h9 := getLegalValues_length_le g (i / GRID_SIZE) (i % GRID_SIZE)
          have h9' : (getLegalValues g (i / GRID_SIZE) (i % GRID_SIZE)).length ≤ 9 := h9
          have hlt' : ¬ (getLegalValues g (i / GRID_SIZE) (i % GRID_SIZE)).length < 10 := hlt
          omega
      | some b =>
        obtain ⟨rb, cb, Lb⟩ := b
        obtain ⟨hrb, hcb, hib, hemp, heqL, hne, hstrict, hle⟩ := hinv
        subst heqL
        by_cases hlt :
            (getLegalValues g (i / GRID_SIZE) (i % GRID_SIZE)).length <
              minOpt (some (rb, cb, getLegalValues g rb cb))
        · have hltb : (getLegalValues g (i / GRID_SIZE) (i % GRID_SIZE)).length <
              (getLegalValues g rb cb).length := hlt
          rw [if_pos hlt]
          by_cases hone :
              (getLegalValues g (i / GRID_SIZE) (i % GRID_SIZE)).length = 1
          · rw [if_pos hone]
            refine ⟨fun h => Option.noConfusion h, fun r c legal heq => ?_⟩
            rw [Option.some.injEq, Prod.mk.injEq, Prod.mk.injEq] at heq
            obtain ⟨h1, h2, h3⟩ := heq
            subst h1; subst h2; subst h3
            refine ⟨hr0, hc0, hcell, rfl, ?_, fun hne1 => absurd hone hne1⟩
            intro r' c' hr' hc' hlt' hemp'
            have hle' := hle r' c' hr' hc' (by rw [hidx] at hlt'; omega) hemp'
            omega
          · rw [if_neg hone]
            refine ih (i + 1) _ (by omega) ?_
            refine ⟨hr0, hc0, by omega, hcell, rfl, hone, ?_, ?_⟩
            · intro r' c' hr' hc' hlt' hemp'
              have hle' := hle r' c' hr' hc' (by rw [hidx] at hlt'; omega) hemp'
              omega
            · intro r' c' hr' hc' hlt' hemp'
              rcases Nat.lt_or_ge (GRID_SIZE * r' + c') i with h | h
              · have hle' := hle r' c' hr' hc' h hemp'
                omega
              · have heqi : GRID_SIZE * r' + c' = i := by omega
                obtain ⟨hh1, hh2⟩ := hcoord r' c' hr' hc' heqi
                subst hh1; subst hh2
                exact Nat.le_refl _
        · rw [if_neg hlt]
          have hgeb : (getLegalValues g rb cb).length ≤
              (getLegalValues g (i / GRID_SIZE) (i % GRID_SIZE)).length := by
            have h' : ¬ (getLegalValues g (i / GRID_SIZE) (i % GRID_SIZE)).length <
                (getLegalValues g rb cb).length := hlt
            omega
          refine ih (i + 1) _ (by omega) ?_
          refine ⟨hrb, hcb, by omega, hemp, rfl, hne, hstrict, ?_⟩
          intro r' c' hr' hc' hlt' hemp'
          rcases Nat.lt_or_ge (GRID_SIZE * r' + c') i with h | h
          · exact hle r' c' hr' hc' h hemp'
          · have heqi : GRID_SIZE * r' + c' = i := by omega
            obtain ⟨hh1, hh2⟩ := hcoord r' c' hr' hc' heqi
            subst hh1; subst hh2
            exact hgeb
    · rw [if_neg hcell]
      refine ih (i + 1) _ (by omega) ?_
      cases best with
      | none =>
        intro r' c' hr' hc' hlt'
        rcases Nat.lt_or_ge (GRID_SIZE * r' + c') i with h | h
        · exact hinv r' c' hr' hc' h
        · have heqi : GRID_SIZE * r' + c' = i := by omega
          obtain ⟨hh1, hh2⟩ := hcoord r' c' hr' hc' heqi
          subst hh1; subst hh2
          exact hcell
      | some b =>
        obtain ⟨rb, cb, Lb⟩ := b
        obtain ⟨hrb, hcb, hib, hemp, heqL, hne, hstrict, hle⟩ := hinv
        subst heqL
        refine ⟨hrb, hcb, by omega, hemp, rfl, hne, hstrict, ?_⟩
        intro r' c' hr' hc' hlt' hemp'
        rcases Nat.lt_or_ge (GRID_SIZE * r' + c') i with h | h
        · exact hle r' c' hr' hc' h hemp'
        · have heqi : GRID_SIZE * r' + c' = i := by omega
          obtain ⟨hh1, hh2⟩ := hcoord r' c' hr' hc' heqi
          subst hh1; subst hh2
          exact absurd hemp' hcell

/-- **C4 (amended).** `findMRVCell` returns `none` exactly when the grid has
no empty cell.  When it returns a cell, that cell is empty, the returned list
is its legal values, the cell is strictly sharper than every empty cell
*earlier in scan order* (lowest row first, then lowest column), and — unless
the scan stopped early because the cell has exactly one legal value — its
candidate count is the minimum over *all* empty cells, ties broken by scan
order.  The original claim's unconditional global minimality is false
(`findMRVCell_not_minimum`): the early return at one legal value can hide a
later empty cell with zero legal values. -/
theorem findMRVCell_spec (g : Grid) :
    (findMRVCell g = none ↔
      ∀ r c, r < GRID_SIZE → c < GRID_SIZE → getCell g r c ≠ none) ∧
    (∀ r c legal, findMRVCell g = some (r, c, legal) →
      r < GRID_SIZE ∧ c < GRID_SIZE ∧ getCell g r c = none ∧
      legal = getLegalValues g r c ∧
      (∀ r' c', r' < GRID_SIZE → c' < GRID_SIZE →
        GRID_SIZE * r' + c' < GRID_SIZE * r + c → getCell g r' c' = none →
        legal.length < (getLegalValues g r' c').length) ∧
      (legal.length ≠ 1 → ∀ r' c', r' < GRID_SIZE → c' < GRID_SIZE →
        getCell g r' c' = none →
        legal.length ≤ (getLegalValues g r' c').length)) := by
  have h := mrvGo_spec g BOARD_SIZE 0 none rfl
    (fun r c _ _ hlt => absurd hlt (Nat.not_lt_zero _))
  obtain ⟨h1, h2⟩ := h
  refine ⟨⟨h1, ?_⟩, h2⟩
  intro hall
  cases hR : findMRVCell g with
  | none => rfl
  | some b =>
    obtain ⟨r, c, legal⟩ := b
    obtain ⟨hr, hc, hemp, _⟩ := h2 r c legal hR
    exact absurd hemp (hall r c hr hc)

theorem findMRVCell_spec_witness :
    (0 : Nat) < GRID_SIZE ∧ getCell mrvTrapGrid 0 0 = none ∧
    [9] = getLegalValues mrvTrapGrid 0 0 :=
  ⟨by decide,
   ((findMRVCell_spec mrvTrapGrid).2 0 0 [9] (by decide)).2.2.1,
   ((findMRVCell_spec mrvTrapGrid).2 0 0 [9] (by decide)).2.2.2.1⟩

/-! ### The bitmask backtracking solver (`bitmaskSolver.ts`, instantiated
for `(number | null)[][]` grids as in `engine.ts`: `isEmpty` is
`cell === null` and `setCell` writes into the grid) -/

/-- `Math.floor(row / BOX_SIZE) * BOX_SIZE + Math.floor(col / BOX_SIZE)`. -/
def boxIndex (r c : Nat) : Nat := r / BOX_SIZE * BOX_SIZE + c / BOX_SIZE

/-- The solver's mutable locals: the grid, the three bit-mask arrays,
`solutionCount` and `found`, plus a cursor `k` into an injected stream
`σ : Nat → Nat` replacing `Math.random` (each call reads `σ k` modulo the
bound and advances the cursor). -/
structure BState where
  grid : Grid
  rowMask : List Nat
  colMask : List Nat
  boxMask : List Nat
  count : Nat
  found : Bool
  k : Nat

/-- The mask-initialization loop of `bitmaskBacktrack`. -/
def initMasks (g : Grid) : List Nat × List Nat × List Nat :=
  ((List.range GRID_SIZE).flatMap
      (fun r => (List.range GRID_SIZE).map (fun c => (r, c)))).foldl
    (fun ms rc =>
      match getCell g rc.1 rc.2 with
      | none => ms
      | some v =>
        (ms.1.set rc.1 (ms.1.getD rc.1 0 ||| (1 <<< (v - 1))),
         ms.2.1.set rc.2 (ms.2.1.getD rc.2 0 ||| (1 <<< (v - 1))),
         ms.2.2.set (boxIndex rc.1 rc.2)
           (ms.2.2.getD (boxIndex rc.1 rc.2) 0 ||| (1 <<< (v - 1)))))
    (List.replicate GRID_SIZE 0, List.replicate GRID_SIZE 0,
     List.replicate GRID_SIZE 0)

/-- The legal-value loop of the mask-based `findMRVCell`: the digits whose
bit is clear in the combined present mask. -/
def legalFromMask (pm : Nat) : List Nat :=
  (List.range' 1 GRID_SIZE).filter (fun v => pm &&& (1 <<< (v - 1)) == 0)

/-- The mask-based `findMRVCell` scan of `bitmaskSolver.ts`, in the same
index-for-fuel shape as `mrvGo`. -/
def mrvGoB (g : Grid) (rm cm bm : List Nat) :
    Nat → Nat → Option (Nat × Nat × List Nat) → Option (Nat × Nat × List Nat)
  | 0, _, best => best
  | m + 1, i, best =>
      if getCell g (i / GRID_SIZE) (i % GRID_SIZE) = none then
        if (legalFromMask (rm.getD (i / GRID_SIZE) 0 ||| cm.getD (i % GRID_SIZE) 0 |||
              bm.getD (boxIndex (i / GRID_SIZE) (i % GRID_SIZE)) 0)).length < minOpt best then
          if (legalFromMask (rm.getD (i / GRID_SIZE) 0 ||| cm.getD (i % GRID_SIZE) 0 |||
                bm.getD (boxIndex (i / GRID_SIZE) (i % GRID_SIZE)) 0)).length = 1 then
            some (i / GRID_SIZE, i % GRID_SIZE,
              legalFromMask (rm.getD (i / GRID_SIZE) 0 ||| cm.getD (i % GRID_SIZE) 0 |||
                bm.getD (boxIndex (i / GRID_SIZE) (i % GRID_SIZE)) 0))
          else
            mrvGoB g rm cm bm m (i + 1)
              (some (i / GRID_SIZE, i % GRID_SIZE,
                legalFromMask (rm.getD (i / GRID_SIZE) 0 ||| cm.getD (i % GRID_SIZE) 0 |||
                  bm.getD (boxIndex (i / GRID_SIZE) (i % GRID_SIZE)) 0)))
        else mrvGoB g rm cm bm m (i + 1) best
      else mrvGoB g rm cm bm m (i + 1) best

def findMRVCellB (st : BState) : Option (Nat × Nat × List Nat) :=
  mrvGoB st.grid st.rowMask st.colMask st.boxMask BOARD_SIZE 0 none

/-- One swap `[l[i], l[j]] = [l[j], l[i]]` (no-op when an index is out of
range, which never happens in the shuffle below). -/
def swapL (l : List Nat) (i j : Nat) : List Nat :=
  match l[i]?, l[j]? with
  | some a, some b => (l.set i b).set j a
  | _, _ => l

/-- The Fisher–Yates loop `for (let i = len - 1; i > 0; i--)` of `dfs`, with
`Math.floor(Math.random() * (i + 1))` replaced by `σ k % (i + 1)`; returns
the shuffled list together with the advanced cursor. -/
def fyAux (σ : Nat → Nat) : Nat → List Nat → Nat → List Nat × Nat
  | 0, l, k => (l, k)
  | i + 1, l, k => fyAux σ i (swapL l (i + 1) (σ k % (i + 2))) (k + 1)

def shuffleFY (σ : Nat → Nat) (l : List Nat) (k : Nat) : List Nat × Nat :=
  fyAux σ (l.length - 1) l k

/-- The `for (const val of shuffled)` loop of `dfs`.  `dfsNext` is the
recursive call (at one less fuel).  The rollback line is the source's
`setCell(row, col, isEmpty(grid[row][col]) ? null : 0)` — after a child
call returns the cell still holds `val`, so this writes `0`, not `null` —
and `m - (m &&& bit)` is `m &= ~bit`, clearing `bit` in `m`. -/
def tryVals (dfsNext : BState → Bool × BState) (r c b : Nat) :
    List Nat → BState → Bool × BState
  | [], st => (false, st)
  | v :: rest, st =>
      if st.rowMask.getD r 0 &&& (1 <<< (v - 1)) != 0 ||
          st.colMask.getD c 0 &&& (1 <<< (v - 1)) != 0 ||
          st.boxMask.getD b 0 &&& (1 <<< (v - 1)) != 0 then
        tryVals dfsNext r c b rest st
      else
        match dfsNext
          { st with
            grid := setCell st.grid r c (some v),
            rowMask := st.rowMask.set r (st.rowMask.getD r 0 ||| (1 <<< (v - 1))),
            colMask := st.colMask.set c (st.colMask.getD c 0 ||| (1 <<< (v - 1))),
            boxMask := st.boxMask.set b (st.boxMask.getD b 0 ||| (1 <<< (v - 1))) } with
        | (true, st2) => (true, st2)
        | (false, st2) =>
            tryVals dfsNext r c b rest
              { st2 with
                grid := setCell st2.grid r c
                  (if getCell st2.grid r c = none then none else some 0),
                rowMask := st2.rowMask.set r
                  (st2.rowMask.getD r 0 - (st2.rowMask.getD r 0 &&& (1 <<< (v - 1)))),
                colMask := st2.colMask.set c
                  (st2.colMask.getD c 0 - (st2.colMask.getD c 0 &&& (1 <<< (v - 1)))),
                boxMask := st2.boxMask.set b
                  (st2.boxMask.getD b 0 - (st2.boxMask.getD b 0 &&& (1 <<< (v - 1)))) }

/-- `dfs`, with explicit fuel: each recursive call fills one empty cell, so
the recursion depth never exceeds `BOARD_SIZE + 1` and the fuel passed by
`runBacktrack` is never exhausted.  `onTrue` selects the `onSolution`
callback `engine.ts` passes: `() => true` for `solve`, `() => {}`
(returning `undefined`) for `hasUniqueSolution`.  `maxS = 0` models an
omitted `maxSolutions` (both JavaScript `undefined` and `0` are falsy in
the guards `maxSolutions && ...` and `maxSolutions ? ... : ...`). -/
def dfsB (σ : Nat → Nat) (maxS : Nat) (onTrue : Bool) : Nat → BState → Bool × BState
  | 0, st => (false, st)
  | fuel + 1, st =>
      if maxS ≠ 0 ∧ maxS ≤ st.count then (false, st)
      else
        match findMRVCellB st with
        | none =>
            if onTrue then (true, { st with count := st.count + 1, found := true })
            else (false, { st with count := st.count + 1 })
        | some (r, c, legal) =>
            tryVals (dfsB σ maxS onTrue fuel) r c (boxIndex r c)
              (shuffleFY σ legal st.k).1 { st with k := (shuffleFY σ legal st.k).2 }

/-- `bitmaskBacktrack` as called through `engine.ts`'s `backtrack`: build
the masks, run `dfs`, and return its result together with the final state. -/
def runBacktrack (σ : Nat → Nat) (g : Grid) (onTrue : Bool) (maxS : Nat) :
    Bool × BState :=
  dfsB σ maxS onTrue (BOARD_SIZE + 1)
    { grid := g, rowMask := (initMasks g).1, colMask := (initMasks g).2.1,
      boxMask := (initMasks g).2.2, count := 0, found := false, k := 0 }

/-- The value `bitmaskBacktrack` returns when `maxSolutions` is given:
`solutionCount`. -/
def countSolutionsB (σ : Nat → Nat) (g : Grid) (maxS : Nat) : Nat :=
  ((runBacktrack σ g false maxS).2).count

/-- `puzzle.map(row => [...row])` from `hasUniqueSolution`. -/
def copyGrid (g : Grid) : Grid := g.map (fun row => row.map (fun x => x))

/-- `hasUniqueSolution` from `engine.ts`, with the caller's grid threaded
through explicitly: all writes go through the `setCell` closure over
`gridCopy`, while `puzzle` is only read to build the copy, so the caller's
array is the unchanged `puzzle` afterwards.  Returns
`(count === 1, the caller's grid after the call)`. -/
def hasUniqueSolutionRun (σ : Nat → Nat) (puzzle : Grid) : Bool × Grid :=
  (countSolutionsB σ (copyGrid puzzle) 2 == 1, puzzle)

def hasUniqueSolution (σ : Nat → Nat) (puzzle : Grid) : Bool :=
  (hasUniqueSolutionRun σ puzzle).1

/-- A deterministic stand-in for `Math.random`: the all-zero stream. -/
def zeroStream : Nat → Nat := fun _ => 0

/-- A valid puzzle that is a fully solved grid except for the two empty
cells `(0,0)` and `(0,1)`. -/
def twoEmptyPuzzle : Grid :=
  stringToGrid ("003456789456789123789123456234567891" ++
    "567891234891234567345678912678912345912345678").toList

set_option maxRecDepth 8000 in
/-- **C3, counterexample (code bug).** Starting from the valid grid
`twoEmptyPuzzle`, the search of `bitmaskBacktrack` does *not* stay inside
valid states: the rollback line `setCell(row, col, isEmpty(grid[row][col])
? null : 0)` writes the digit `0` (the cell it resets still holds the value
just tried, so `isEmpty` is false), and when the exhausted search returns,
the grid holds `0` in both `(0,0)` and `(0,1)` — two equal non-null values
in one row and box, an invalid state reached during the search. -/
theorem backtrack_reaches_invalid_state :
    ValidG twoEmptyPuzzle ∧ WellFormed twoEmptyPuzzle ∧
    CellsInRange twoEmptyPuzzle ∧
    getCell (runBacktrack zeroStream twoEmptyPuzzle false 2).2.grid 0 0 = some 0 ∧
    getCell (runBacktrack zeroStream twoEmptyPuzzle false 2).2.grid 0 1 = some 0 ∧
    ¬ ValidG (runBacktrack zeroStream twoEmptyPuzzle false 2).2.grid := by
  decide

/-- **C9.** `hasUniqueSolution` never mutates its caller's grid: the copy
`puzzle.map(row => [...row])` it hands to the solver equals the original
cell for cell, every write of the search goes to that copy, and the
caller's grid after the call is exactly the grid before it; the returned
boolean is `countSolutions(copy, 2) === 1`. -/
theorem hasUniqueSolution_no_mutation (σ : Nat → Nat) (puzzle : Grid) :
    copyGrid puzzle = puzzle ∧
    (hasUniqueSolutionRun σ puzzle).2 = puzzle ∧
    hasUniqueSolution σ puzzle = (countSolutionsB σ puzzle 2 == 1) := by
  have hcopy : copyGrid puzzle = puzzle := by
    unfold copyGrid
    simp [List.map_id']
  refine ⟨hcopy, rfl, ?_⟩
  unfold hasUniqueSolution hasUniqueSolutionRun
  rw [hcopy]

/-! ### A verified uniqueness certificate by naked-single propagation.
These definitions are proof machinery (not part of the program): they
let the kernel check that a concrete puzzle has exactly one solution. -/

/-- One forced step: fill the first empty cell (in scan order) having
exactly one legal value. -/
def forcedStep (g : Grid) : Option Grid :=
  (allCoords.find? (fun rc =>
      getCell g rc.1 rc.2 == none &&
      (getLegalValues g rc.1 rc.2).length == 1)).map
    (fun rc => setCell g rc.1 rc.2 (some ((getLegalValues g rc.1 rc.2).headD 0)))

def propagateN : Nat → Grid → Grid
  | 0, g => g
  | n + 1, g =>
      match forcedStep g with
      | none => g
      | some g' => propagateN n g'

/-- Any solution assigns an empty cell one of its legal values. -/
theorem solution_value_in_legal {g s : Grid} {r c : Nat} (hs : IsSolution g s)
    (hr : r < GRID_SIZE) (hc : c < GRID_SIZE) (hempty : getCell g r c = none) :
    ∃ v, getCell s r c = some v ∧ v ∈ getLegalValues g r c := by
  obtain ⟨hwf, hrange, hcomp, hvalid, hext⟩ := hs
  obtain ⟨v, hv⟩ := Option.ne_none_iff_exists'.mp (hcomp r hr c hc)
  refine ⟨v, hv, ?_⟩
  unfold getLegalValues
  rw [List.mem_filter]
  constructor
  · rw [List.mem_range'_1]
    have hok := hrange r hr c hc
    rw [hv] at hok
    obtain ⟨h1, h2⟩ := hok
    refine ⟨h1, ?_⟩
    show v < 1 + 9
    omega
  · rw [Bool.not_eq_true', Bool.eq_false_iff]
    intro hpres
    have hsvne : getCell s r c ≠ none := by rw [hv]; exact fun hh => Option.noConfusion hh
    unfold presentB at hpres
    rw [Bool.or_eq_true] at hpres
    rcases hpres with h | h
    · rw [List.any_eq_true] at h
      obtain ⟨i, hi, hor⟩ := h
      rw [List.mem_range] at hi
      rw [Bool.or_eq_true] at hor
      rcases hor with h' | h'
      · rw [beq_iff_eq] at h'
        have hgne : getCell g r i ≠ none := by
          rw [h']; exact fun hh => Option.noConfusion hh
        have hpeer : PeerPos r c r i := by
          refine ⟨?_, Or.inl rfl⟩
          rintro ⟨-, rfl⟩
          rw [hempty] at h'
          exact Option.noConfusion h'
        have hne := hvalid r hr c hc r hr i hi hpeer hsvne
        rw [hv, hext r hr i hi hgne, h'] at hne
        exact hne rfl
      · rw [beq_iff_eq] at h'
        have hgne : getCell g i c ≠ none := by
          rw [h']; exact fun hh => Option.noConfusion hh
        have hpeer : PeerPos r c i c := by
          refine ⟨?_, Or.inr (Or.inl rfl)⟩
          rintro ⟨rfl, -⟩
          rw [hempty] at h'
          exact Option.noConfusion h'
        have hne := hvalid r hr c hc i hi c hc hpeer hsvne
        rw [hv, hext i hi c hc hgne, h'] at hne
        exact hne rfl
    · rw [List.any_eq_true] at h
      obtain ⟨dr, hdr, h2⟩ := h
      rw [List.any_eq_true] at h2
      obtain ⟨dc, hdc, h'⟩ := h2
      rw [List.mem_range] at hdr hdc
      rw [beq_iff_eq] at h'
      have hr9 : r < 9 := hr
      have hc9 : c < 9 := hc
      have hdr3 : dr < 3 := hdr
      have hdc3 : dc < 3 := hdc
      have hrb : r / BOX_SIZE * BOX_SIZE + dr < GRID_SIZE := by
        have : r / 3 * 3 + dr < 9 := by omega
        exact this
      have hcb : c / BOX_SIZE * BOX_SIZE + dc < GRID_SIZE := by
        have : c / 3 * 3 + dc < 9 := by omega
        exact this
      have hgne : getCell g (r / BOX_SIZE * BOX_SIZE + dr) (c / BOX_SIZE * BOX_SIZE + dc) ≠ none := by
        rw [h']; exact fun hh => Option.noConfusion hh
      have hpeer : PeerPos r c (r / BOX_SIZE * BOX_SIZE + dr) (c / BOX_SIZE * BOX_SIZE + dc) := by
        refine ⟨?_, Or.inr (Or.inr ⟨?_, ?_⟩)⟩
        · rintro ⟨h1, h2⟩
          rw [← h1, ← h2] at h'
          rw [hempty] at h'
          exact Option.noConfusion h'
        · show r / 3 = (r / 3 * 3 + dr) / 3
          omega
        · show c / 3 = (c / 3 * 3 + dc) / 3
          omega
      have hne := hvalid r hr c hc _ hrb _ hcb hpeer hsvne
      rw [hv, hext _ hrb _ hcb hgne, h'] at hne
      exact hne rfl

/-- Writing into the puzzle a value its solution holds there keeps `s` a
solution. -/
theorem IsSolution_setCell {g s : Grid} {r c v : Nat} (hwfg : WellFormed g)
    (hr : r < GRID_SIZE) (hc : c < GRID_SIZE) (hs : IsSolution g s)
    (hsv : getCell s r c = some v) :
    IsSolution (setCell g r c (some v)) s := by
  obtain ⟨hwf, hrange, hcomp, hvalid, hext⟩ := hs
  refine ⟨hwf, hrange, hcomp, hvalid, ?_⟩
  intro r' hr' c' hc' hne
  by_cases heq : r = r' ∧ c = c'
  · obtain ⟨rfl, rfl⟩ := heq
    rw [getCell_setCell_self (some v) hwfg hr hc]
    exact hsv
  · rw [getCell_setCell_ne _ heq] at hne ⊢
    exact hext r' hr' c' hc' hne

theorem forcedStep_wf {g g' : Grid} (hwf : WellFormed g)
    (h : forcedStep g = some g') : WellFormed g' := by
  unfold forcedStep at h
  rcases hOpt : allCoords.find? (fun rc =>
      getCell g rc.1 rc.2 == none &&
      (getLegalValues g rc.1 rc.2).length == 1) with - | rc
  · rw [hOpt] at h
    exact Option.noConfusion h
  · rw [hOpt, Option.map_some'] at h
    rw [Option.some.injEq] at h
    rw [← h]
    exact wellFormed_setCell _ hwf

theorem forcedStep_sound {g g' s : Grid} (hwfg : WellFormed g)
    (hs : IsSolution g s) (h : forcedStep g = some g') : IsSolution g' s := by
  unfold forcedStep at h
  rcases hOpt : allCoords.find? (fun rc =>
      getCell g rc.1 rc.2 == none &&
      (getLegalValues g rc.1 rc.2).length == 1) with - | rc
  · rw [hOpt] at h
    exact Option.noConfusion h
  · obtain ⟨a, b⟩ := rc
    rw [hOpt, Option.map_some'] at h
    rw [Option.some.injEq] at h
    have hp := List.find?_some hOpt
    rw [Bool.and_eq_true] at hp
    obtain ⟨hemp, hlen⟩ := hp
    rw [beq_iff_eq] at hemp hlen
    obtain ⟨hr, hc⟩ := mem_allCoords.mp (List.mem_of_find?_eq_some hOpt)
    obtain ⟨v₀, hv₀⟩ := List.length_eq_one.mp hlen
    obtain ⟨v, hsv, hvleg⟩ := solution_value_in_legal ⟨hs.1, hs.2.1, hs.2.2.1, hs.2.2.2.1, hs.2.2.2.2⟩ hr hc hemp
    rw [hv₀, List.mem_singleton] at hvleg
    subst hvleg
    rw [← h, hv₀]
    exact IsSolution_setCell hwfg hr hc hs hsv

theorem propagateN_wf {g : Grid} (hwf : WellFormed g) (n : Nat) :
    WellFormed (propagateN n g) := by
  induction n generalizing g with
  | zero => exact hwf
  | succ n ih =>
    show WellFormed (propagateN (n + 1) g)
    rw [propagateN]
    rcases hOpt : forcedStep g with - | g'
    · exact hwf
    · exact ih (forcedStep_wf hwf hOpt)

theorem propagateN_sound {g s : Grid} (hwf : WellFormed g) (hs : IsSolution g s)
    (n : Nat) : IsSolution (propagateN n g) s := by
  induction n generalizing g with
  | zero => exact hs
  | succ n ih =>
    show IsSolution (propagateN (n + 1) g) s
    rw [propagateN]
    rcases hOpt : forcedStep g with - | g'
    · exact hs
    · exact ih (forcedStep_wf hwf hOpt) (forcedStep_sound hwf hs hOpt)

theorem eq_of_solution_complete {g s : Grid} (hs : IsSolution g s)
    (hwfg : WellFormed g) (hcomp : Complete g) : s = g := by
  obtain ⟨hwf, -, -, -, hext⟩ := hs
  exact Grid.ext hwf hwfg (fun r hr c hc => hext r hr c hc (hcomp r hr c hc))

/-- A puzzle with exactly one completion on which `hasUniqueSolution`
nevertheless answers `false` (found by randomized search against a correct
reference counter). -/
def mismatchPuzzle : Grid :=
  stringToGrid ("300004700804000526016092000000400090" ++
    "035870062600003080500200000070008250001005040").toList

/-- `mismatchPuzzle` after its 11 forced naked-single steps. -/
def stuckGrid : Grid :=
  stringToGrid ("352684719894000526716592030000400090" ++
    "035870062600003080500200070070008250001005040").toList

/-- The unique solution of `mismatchPuzzle`. -/
def solutionF : Grid :=
  stringToGrid ("352684719894317526716592834128456397" ++
    "935871462647923185583249671479168253261735948").toList

/-- The contradiction reached from the branch `8` at `(3,1)`: cell `(7,3)`
is empty with no legal value left. -/
def deadGrid : Grid :=
  stringToGrid ("352684719894317526716592834187426395" ++
    "435879162629153487548261973973048251261035048").toList

set_option maxRecDepth 16000 in
theorem propagate_mismatch_stuck : propagateN 11 mismatchPuzzle = stuckGrid := by
  decide

set_option maxRecDepth 16000 in
theorem propagate_branch2_full :
    propagateN 37 (setCell stuckGrid 3 1 (some 2)) = solutionF := by
  decide

set_option maxRecDepth 16000 in
theorem propagate_branch8_dead :
    propagateN 34 (setCell stuckGrid 3 1 (some 8)) = deadGrid := by
  decide

set_option maxRecDepth 16000 in
/-- **C2, counterexample (code bug).** The valid puzzle `mismatchPuzzle`
has *exactly one* completion (proved by a kernel-checked naked-single
certificate: 11 forced steps reach `stuckGrid`, whose cell `(3,1)` admits
only 2 or 8; the branch 8 propagates to a cell with no legal value, the
branch 2 propagates to the full grid `solutionF`), yet `hasUniqueSolution`
returns `false`: its backtracking rollback writes `0` instead of `null`
(`setCell(row, col, isEmpty(grid[row][col]) ? null : 0)`), the reset cells
are afterwards treated as filled, and the solver counts two "solutions" on
a uniquely solvable grid. -/
theorem hasUniqueSolution_not_iff :
    WellFormed mismatchPuzzle ∧ CellsInRange mismatchPuzzle ∧
    ValidG mismatchPuzzle ∧
    (∃! s : Grid, IsSolution mismatchPuzzle s) ∧
    hasUniqueSolution zeroStream mismatchPuzzle = false := by
  have hcnt : countSolutionsB zeroStream (copyGrid mismatchPuzzle) 2 = 2 := by decide
  refine ⟨by decide, by decide, by decide, ?_, ?_⟩
  · refine ⟨solutionF, by decide, ?_⟩
    intro s hs
    have hwfP : WellFormed mismatchPuzzle := by decide
    have h1 : IsSolution (propagateN 11 mismatchPuzzle) s := propagateN_sound hwfP hs 11
    rw [propagate_mismatch_stuck] at h1
    have hwfS : WellFormed stuckGrid := by decide
    have hemp : getCell stuckGrid 3 1 = none := by decide
    obtain ⟨v, hsv, hvleg⟩ := solution_value_in_legal h1 (by decide) (by decide) hemp
    have hleg : getLegalValues stuckGrid 3 1 = [2, 8] := by decide
    rw [hleg] at hvleg
    have hv28 : v = 2 ∨ v = 8 := by simpa using hvleg
    rcases hv28 with rfl | rfl
    · have h2 : IsSolution (setCell stuckGrid 3 1 (some 2)) s :=
        IsSolution_setCell hwfS (by decide) (by decide) h1 hsv
      have h3 : IsSolution (propagateN 37 (setCell stuckGrid 3 1 (some 2))) s :=
        propagateN_sound (wellFormed_setCell _ hwfS) h2 37
      rw [propagate_branch2_full] at h3
      exact eq_of_solution_complete h3 (by decide) (by decide)
    · exfalso
      have h2 : IsSolution (setCell stuckGrid 3 1 (some 8)) s :=
        IsSolution_setCell hwfS (by decide) (by decide) h1 hsv
      have h3 : IsSolution (propagateN 34 (setCell stuckGrid 3 1 (some 8))) s :=
        propagateN_sound (wellFormed_setCell _ hwfS) h2 34
      rw [propagate_branch8_dead] at h3
      have hempD : getCell deadGrid 7 3 = none := by decide
      have hdead : getLegalValues deadGrid 7 3 = [] := by decide
      obtain ⟨w, hw, hwleg⟩ := solution_value_in_legal h3 (by decide) (by decide) hempD
      rw [hdead] at hwleg
      exact absurd hwleg (List.not_mem_nil w)
  · unfold hasUniqueSolution hasUniqueSolutionRun
    rw [hcnt]
    rfl

/-- A cheap forced-move checker (proof machinery): replay a recorded list of
naked-single steps, verifying at each step that the named cell is empty and
has exactly the recorded value as its one legal value. -/
def checkForcedChain (g : Grid) : List (Nat × Nat × Nat) → Option Grid
  | [] => some g
  | rcv :: rest =>
      if rcv.1 < GRID_SIZE ∧ rcv.2.1 < GRID_SIZE ∧
          getCell g rcv.1 rcv.2.1 = none ∧
          getLegalValues g rcv.1 rcv.2.1 = [rcv.2.2] then
        checkForcedChain (setCell g rcv.1 rcv.2.1 (some rcv.2.2)) rest
      else none

/-- Replaying a checked forced chain preserves every solution. -/
theorem checkForcedChain_sound {s : Grid} (steps : List (Nat × Nat × Nat)) :
    ∀ g g', WellFormed g → checkForcedChain g steps = some g' →
      IsSolution g s → IsSolution g' s := by
  induction steps with
  | nil =>
    intro g g' hwf h hs
    rw [checkForcedChain, Option.some.injEq] at h
    rw [← h]
    exact hs
  | cons rcv rest ih =>
    intro g g' hwf h hs
    by_cases hcond : rcv.1 < GRID_SIZE ∧ rcv.2.1 < GRID_SIZE ∧
        getCell g rcv.1 rcv.2.1 = none ∧
        getLegalValues g rcv.1 rcv.2.1 = [rcv.2.2]
    · rw [checkForcedChain, if_pos hcond] at h
      obtain ⟨hr, hc, hemp, hleg⟩ := hcond
      obtain ⟨w, hsw, hwleg⟩ := solution_value_in_legal hs hr hc hemp
      rw [hleg, List.mem_singleton] at hwleg
      subst hwleg
      exact ih _ _ (wellFormed_setCell _ hwf) h (IsSolution_setCell hwf hr hc hs hsw)
    · rw [checkForcedChain, if_neg hcond] at h
      exact Option.noConfusion h


/-! ### The hard-coded puzzle of `gameStore.ts`'s `generateSudokuPuzzle`
(returned for every difficulty) has exactly one solution.  The branch tree
below is a kernel-checked certificate: at each stuck grid some cell admits
only two values, and every branch either forces its way (naked singles,
verified step by step by `checkForcedChain`) to a contradiction — an empty
cell with no legal value — or to the one full grid `hpSolution`. -/

/-- The 81-character puzzle string hard-coded in `gameStore.ts` (the grid
its local `generateSudokuPuzzle` returns via `stringToGrid` for every
difficulty). -/
def hardcodedPuzzle : Grid :=
  stringToGrid ("0800721000000009000000400080000050009007" ++
    "00000160900400000000350040300010208000604").toList

/-- An intermediate grid of the certificate tree for `hardcodedPuzzle`. -/
def hpG1 : Grid :=
  stringToGrid ("0800721000000009000000400080000050009007" ++
    "00000160900400000000350040300010208100604").toList

/-- An intermediate grid of the certificate tree for `hardcodedPuzzle`. -/
def hpG2 : Grid :=
  stringToGrid ("0800721000000009000000400080000050009007" ++
    "00000160900400000000350040300010238157694").toList

/-- An intermediate grid of the certificate tree for `hardcodedPuzzle`. -/
def hpG3 : Grid :=
  stringToGrid ("0800721000000009000000400080000050009007" ++
    "00000160900400000000352040300817238157694").toList

/-- An intermediate grid of the certificate tree for `hardcodedPuzzle`. -/
def hpG4 : Grid :=
  stringToGrid ("0805721000008009000006400080702050009007" ++
    "00000160900400000400352040300817238157694").toList

/-- An intermediate grid of the certificate tree for `hardcodedPuzzle`. -/
def hpG5 : Grid :=
  stringToGrid ("0806721000008009000005400080702050009007" ++
    "00000160900400000400352040300817238157694").toList

/-- An intermediate grid of the certificate tree for `hardcodedPuzzle`. -/
def hpG6 : Grid :=
  stringToGrid ("0800721000000009000000400080000050009007" ++
    "00000160900400600000357040300812238157694").toList

/-- An intermediate grid of the certificate tree for `hardcodedPuzzle`. -/
def hpG7 : Grid :=
  stringToGrid ("4805721035728319463106495088234157699547" ++
    "60201167920405691284357745396812238157694").toList

/-- An intermediate grid of the certificate tree for `hardcodedPuzzle`. -/
def hpG8 : Grid :=
  stringToGrid ("0800721000000009000000407080700052009207" ++
    "00500165928473600000357040300812238157694").toList

/-- An intermediate grid of the certificate tree for `hardcodedPuzzle`. -/
def hpG9 : Grid :=
  stringToGrid ("4895721367168309053526407088734152699247" ++
    "63581165928473691284357547396812238157694").toList

/-- The unique solution of `hardcodedPuzzle`. -/
def hpSolution : Grid :=
  stringToGrid ("4896721357528319463165497288734152699247" ++
    "63581165928473691284357547396812238157694").toList

/-- An intermediate grid of the certificate tree for `hardcodedPuzzle`. -/
def hpG10 : Grid :=
  stringToGrid ("0800721000000009000000400080000050009007" ++
    "00000160900400000000350040300010238159674").toList

/-- An intermediate grid of the certificate tree for `hardcodedPuzzle`. -/
def hpG11 : Grid :=
  stringToGrid ("0800721000000009000000400080000050009007" ++
    "00000160900400000000359040300210238159674").toList

/-- An intermediate grid of the certificate tree for `hardcodedPuzzle`. -/
def hpG12 : Grid :=
  stringToGrid ("0800721000000009000000400080000050009007" ++
    "00000160900400000000350040300810238159674").toList

/-- An intermediate grid of the certificate tree for `hardcodedPuzzle`. -/
def hpG13 : Grid :=
  stringToGrid ("6895721434708319063106405288234157009547" ++
    "86231167923485700200359540367812238159674").toList

/-- An intermediate grid of the certificate tree for `hardcodedPuzzle`. -/
def hpG14 : Grid :=
  stringToGrid ("0800721000000009000000407080700052009207" ++
    "00500160900400000000350040300810238159674").toList

/-- An intermediate grid of the certificate tree for `hardcodedPuzzle`. -/
def hpG15 : Grid :=
  stringToGrid ("4865721307518309063926417088734652919247" ++
    "18563165923487617284359549300812238159674").toList

/-- An intermediate grid of the certificate tree for `hardcodedPuzzle`. -/
def hpG16 : Grid :=
  stringToGrid ("3896721454578109006125437088734652919247" ++
    "31586165928437791280350546307810238159674").toList

/-- An intermediate grid of the certificate tree for `hardcodedPuzzle`. -/
def hpG17 : Grid :=
  stringToGrid ("0806721000008539000001490080000050009007" ++
    "00000160908400000000350040300010208500604").toList

/-- An intermediate grid of the certificate tree for `hardcodedPuzzle`. -/
def hpG18 : Grid :=
  stringToGrid ("0806721000008539060001490080004050009007" ++
    "01000160908400600284357040396812238517694").toList

/-- An intermediate grid of the certificate tree for `hardcodedPuzzle`. -/
def hpG19 : Grid :=
  stringToGrid ("5896721434128539763761495288234657009547" ++
    "31200167928435691284357745396812238517694").toList

/-- An intermediate grid of the certificate tree for `hardcodedPuzzle`. -/
def hpG20 : Grid :=
  stringToGrid ("4896721357128539463561497288734652009247" ++
    "31500165928473691284357547396812238517694").toList

/-- An intermediate grid of the certificate tree for `hardcodedPuzzle`. -/
def hpG21 : Grid :=
  stringToGrid ("0806721000008539000001490080000050009007" ++
    "00000160908400000000350040300010238591674").toList

/-- An intermediate grid of the certificate tree for `hardcodedPuzzle`. -/
def hpG22 : Grid :=
  stringToGrid ("4896721357128539466531490083742658919207" ++
    "14563165938427090480352540320019238591674").toList

/-- An intermediate grid of the certificate tree for `hardcodedPuzzle`. -/
def hpG23 : Grid :=
  stringToGrid ("0806721000008539000001490080004050009007" ++
    "06000160908400000284359549367812238591674").toList

/-- An intermediate grid of the certificate tree for `hardcodedPuzzle`. -/
def hpG24 : Grid :=
  stringToGrid ("3856721404128539676701495288234157969547" ++
    "36281167928435700284359549367812238591674").toList

/-- An intermediate grid of the certificate tree for `hardcodedPuzzle`. -/
def hpG25 : Grid :=
  stringToGrid ("4856721036128539473701490688234157969547" ++
    "26001167938425700284359549367812238591674").toList

def hpSteps1 : List (Nat × Nat × Nat) :=
  []

def hpSteps2 : List (Nat × Nat × Nat) :=
  [(8, 7, 9), (8, 4, 5), (8, 1, 3)]

def hpSteps3 : List (Nat × Nat × Nat) :=
  [(7, 8, 7), (7, 6, 8)]

def hpSteps4 : List (Nat × Nat × Nat) :=
  [(2, 3, 6), (1, 3, 8), (6, 3, 4), (3, 3, 2), (3, 1, 7)]

def hpSteps5 : List (Nat × Nat × Nat) :=
  [(2, 3, 5), (1, 3, 8), (6, 3, 4), (3, 3, 2), (3, 1, 7)]

def hpSteps6 : List (Nat × Nat × Nat) :=
  [(6, 0, 6), (7, 8, 2), (7, 6, 8)]

def hpSteps7 : List (Nat × Nat × Nat) :=
  [(3, 6, 7), (4, 1, 5), (4, 6, 2), (2, 6, 5), (2, 3, 6), (0, 3, 5), (1, 3,
   8), (3, 3, 4), (3, 2, 3), (3, 0, 8), (3, 7, 6), (3, 4, 1), (1, 4, 3), (1,
   5, 1), (1, 1, 7), (1, 8, 6), (0, 8, 3), (0, 0, 4), (1, 0, 5), (1, 2, 2),
   (1, 7, 4), (2, 0, 3), (2, 5, 9), (2, 1, 1), (3, 8, 9), (4, 2, 4), (4, 8,
   1), (5, 2, 7), (5, 8, 5), (6, 1, 9), (6, 2, 1), (6, 3, 2), (6, 4, 8), (4,
   4, 6), (5, 4, 2), (6, 5, 4), (7, 0, 7), (7, 2, 5), (7, 4, 9), (7, 5, 6)]

def hpSteps8 : List (Nat × Nat × Nat) :=
  [(3, 6, 2), (4, 6, 5), (2, 6, 7), (4, 1, 2), (5, 8, 3), (5, 2, 5), (5, 5,
   8), (5, 4, 2), (5, 7, 7)]

def hpSteps9 : List (Nat × Nat × Nat) :=
  [(0, 8, 6), (1, 8, 5), (1, 1, 1), (2, 3, 6), (1, 3, 8), (1, 4, 3), (3, 3,
   4), (3, 2, 3), (3, 0, 8), (3, 7, 6), (3, 4, 1), (3, 8, 9), (4, 2, 4), (0,
   2, 9), (2, 1, 5), (2, 0, 3), (0, 0, 4), (0, 7, 3), (1, 0, 7), (2, 2, 2),
   (1, 2, 6), (4, 4, 6), (4, 5, 3), (4, 7, 8), (4, 8, 1), (6, 1, 9), (6, 2,
   1), (6, 3, 2), (6, 4, 8), (6, 5, 4), (7, 0, 5), (7, 2, 7), (7, 4, 9), (7,
   5, 6)]

def hpSteps10 : List (Nat × Nat × Nat) :=
  [(0, 8, 5), (1, 8, 6), (2, 3, 5), (1, 3, 8), (2, 0, 3), (0, 0, 4), (0, 2,
   9), (0, 7, 3), (2, 1, 1), (1, 1, 5), (1, 0, 7), (1, 2, 2), (1, 7, 4), (2,
   2, 6), (2, 5, 9), (2, 7, 2), (3, 0, 8), (3, 3, 4), (3, 2, 3), (3, 7, 6),
   (3, 4, 1), (1, 4, 3), (1, 5, 1), (3, 8, 9), (4, 2, 4), (4, 4, 6), (4, 5,
   3), (4, 7, 8), (4, 8, 1), (6, 1, 9), (6, 2, 1), (6, 3, 2), (6, 4, 8), (6,
   5, 4), (7, 0, 5), (7, 2, 7), (7, 4, 9), (7, 5, 6)]

def hpSteps11 : List (Nat × Nat × Nat) :=
  [(8, 4, 5), (8, 7, 7), (8, 1, 3)]

def hpSteps12 : List (Nat × Nat × Nat) :=
  [(6, 8, 9)]

def hpSteps13 : List (Nat × Nat × Nat) :=
  []

def hpSteps14 : List (Nat × Nat × Nat) :=
  [(3, 6, 7), (4, 1, 5), (4, 6, 2), (2, 6, 5), (2, 3, 6), (0, 3, 5), (1, 3,
   8), (3, 3, 4), (3, 2, 3), (3, 0, 8), (4, 2, 4), (5, 2, 7), (6, 3, 2), (6,
   8, 9), (7, 4, 6), (3, 4, 1), (1, 4, 3), (1, 5, 1), (1, 1, 7), (2, 0, 3),
   (2, 7, 2), (1, 8, 6), (0, 8, 3), (0, 7, 4), (0, 0, 6), (0, 2, 9), (2, 1,
   1), (4, 4, 8), (4, 8, 1), (5, 4, 2), (5, 5, 3), (4, 5, 6), (4, 7, 3), (5,
   7, 8), (5, 8, 5), (6, 0, 7), (7, 0, 5), (1, 0, 4), (7, 5, 7), (7, 8, 2)]

def hpSteps15 : List (Nat × Nat × Nat) :=
  [(3, 6, 2), (4, 6, 5), (2, 6, 7), (4, 1, 2)]

def hpSteps16 : List (Nat × Nat × Nat) :=
  [(2, 3, 6), (1, 3, 8), (3, 3, 4), (3, 2, 3), (3, 0, 8), (4, 2, 4), (5, 2,
   5), (6, 3, 2), (6, 8, 9), (6, 1, 1), (1, 1, 5), (2, 0, 3), (2, 1, 9), (0,
   2, 6), (0, 0, 4), (0, 7, 3), (1, 0, 7), (2, 5, 1), (1, 4, 3), (2, 2, 2),
   (1, 2, 1), (5, 7, 8), (4, 7, 6), (3, 7, 9), (3, 8, 1), (3, 4, 6), (4, 8,
   3), (4, 5, 8), (4, 4, 1), (5, 4, 2), (5, 5, 3), (5, 8, 7), (6, 0, 6), (6,
   2, 7), (6, 4, 8), (6, 5, 4), (7, 0, 5), (7, 2, 9), (7, 8, 2), (1, 8, 6)]

def hpSteps17 : List (Nat × Nat × Nat) :=
  [(2, 3, 5), (1, 3, 8), (3, 3, 4), (3, 2, 3), (3, 0, 8), (4, 2, 4), (5, 2,
   5), (0, 2, 9), (2, 1, 1), (1, 1, 5), (2, 5, 3), (1, 4, 1), (2, 0, 6), (2,
   2, 2), (1, 2, 7), (3, 4, 6), (3, 7, 9), (3, 8, 1), (5, 5, 8), (4, 4, 3),
   (4, 5, 1), (4, 8, 6), (4, 7, 8), (5, 4, 2), (5, 7, 3), (0, 7, 4), (0, 0,
   3), (0, 8, 5), (1, 0, 4), (5, 8, 7), (6, 0, 7), (6, 1, 9), (6, 3, 2), (6,
   4, 8), (7, 0, 5), (7, 2, 6), (6, 2, 1), (7, 5, 7)]

def hpSteps18 : List (Nat × Nat × Nat) :=
  [(0, 3, 6), (2, 3, 1), (1, 3, 8), (1, 5, 3), (1, 4, 5), (2, 5, 9), (5, 5,
   8)]

def hpSteps19 : List (Nat × Nat × Nat) :=
  [(8, 5, 7), (7, 5, 6), (6, 5, 4), (4, 5, 1), (6, 3, 2), (3, 3, 4), (8, 7,
   9), (6, 8, 7), (6, 0, 6), (7, 8, 2), (1, 8, 6), (7, 6, 8), (7, 4, 9), (6,
   4, 8), (8, 1, 3)]

def hpSteps20 : List (Nat × Nat × Nat) :=
  [(3, 6, 7), (3, 2, 3), (3, 0, 8), (3, 4, 6), (4, 1, 5), (2, 1, 7), (1, 0,
   4), (1, 1, 1), (1, 2, 2), (1, 7, 7), (4, 2, 4), (4, 6, 2), (2, 6, 5), (0,
   8, 3), (0, 0, 5), (0, 2, 9), (0, 7, 4), (2, 0, 3), (2, 2, 6), (2, 7, 2),
   (4, 4, 3), (5, 2, 7), (5, 4, 2), (5, 7, 3), (5, 8, 5), (6, 1, 9), (6, 2,
   1), (7, 0, 7), (7, 2, 5)]

def hpSteps21 : List (Nat × Nat × Nat) :=
  [(3, 6, 2), (3, 2, 3), (3, 0, 8), (3, 4, 6), (4, 6, 5), (2, 6, 7), (4, 1,
   2), (1, 1, 1), (2, 1, 5), (2, 0, 3), (0, 0, 4), (0, 2, 9), (0, 7, 3), (0,
   8, 5), (1, 0, 7), (1, 2, 2), (1, 7, 4), (2, 2, 6), (2, 7, 2), (4, 2, 4),
   (4, 4, 3), (5, 2, 5), (5, 4, 2), (5, 7, 7), (5, 8, 3), (6, 1, 9), (6, 2,
   1), (7, 0, 5), (7, 2, 7)]

def hpSteps22 : List (Nat × Nat × Nat) :=
  [(8, 7, 7), (8, 5, 1), (8, 1, 3)]

def hpSteps23 : List (Nat × Nat × Nat) :=
  [(3, 1, 7), (3, 6, 8), (5, 4, 3), (5, 7, 2), (4, 6, 5), (4, 1, 2), (1, 1,
   1), (2, 1, 5), (5, 2, 5), (5, 8, 7), (6, 1, 9), (6, 3, 4), (6, 8, 2), (1,
   8, 6), (1, 7, 4), (0, 7, 3), (0, 0, 4), (0, 2, 9), (0, 8, 5), (1, 0, 7),
   (1, 2, 2), (3, 0, 3), (2, 0, 6), (2, 2, 3), (3, 2, 4), (4, 7, 6), (3, 7,
   9), (3, 8, 1), (3, 4, 6), (4, 4, 1), (4, 5, 4), (4, 8, 3), (6, 4, 8), (7,
   0, 5), (7, 4, 2), (7, 8, 9)]

def hpSteps24 : List (Nat × Nat × Nat) :=
  [(4, 5, 6), (6, 3, 2), (6, 8, 9), (7, 5, 7), (6, 5, 4), (7, 8, 2), (7, 6,
   8), (7, 4, 6), (6, 4, 8), (7, 0, 5), (7, 2, 9)]

def hpSteps25 : List (Nat × Nat × Nat) :=
  [(5, 7, 3), (0, 7, 4), (0, 0, 3), (0, 2, 5), (5, 2, 7), (3, 0, 8), (3, 1,
   2), (2, 1, 7), (1, 1, 1), (2, 0, 6), (1, 0, 4), (1, 2, 2), (1, 7, 6), (1,
   8, 7), (2, 7, 2), (2, 6, 5), (3, 2, 3), (3, 4, 1), (3, 6, 7), (3, 7, 9),
   (3, 8, 6), (4, 1, 5), (4, 2, 4), (4, 4, 3), (4, 6, 2), (4, 7, 8), (4, 8,
   1), (5, 8, 5), (6, 0, 7)]

def hpSteps26 : List (Nat × Nat × Nat) :=
  [(5, 7, 2), (3, 6, 7), (3, 1, 2), (3, 2, 3), (3, 0, 8), (3, 4, 1), (3, 8,
   6), (1, 8, 7), (1, 1, 1), (3, 7, 9), (4, 1, 5), (2, 1, 7), (4, 2, 4), (0,
   2, 5), (0, 8, 3), (0, 0, 4), (1, 0, 6), (1, 2, 2), (1, 7, 4), (2, 0, 3),
   (2, 7, 6), (4, 4, 2), (4, 8, 1), (5, 2, 7), (5, 8, 5), (6, 0, 7)]

set_option maxRecDepth 16000 in
theorem hpEq1 : checkForcedChain (setCell hardcodedPuzzle 8 3 (some 1)) hpSteps1 = some hpG1 := by
  decide

set_option maxRecDepth 16000 in
theorem hpEq2 : checkForcedChain (setCell hpG1 8 5 (some 7)) hpSteps2 = some hpG2 := by
  decide

set_option maxRecDepth 16000 in
theorem hpEq3 : checkForcedChain (setCell hpG2 6 8 (some 2)) hpSteps3 = some hpG3 := by
  decide

set_option maxRecDepth 16000 in
theorem hpEq4 : checkForcedChain (setCell hpG3 0 3 (some 5)) hpSteps4 = some hpG4 := by
  decide

set_option maxRecDepth 16000 in
theorem hpEq5 : checkForcedChain (setCell hpG3 0 3 (some 6)) hpSteps5 = some hpG5 := by
  decide

set_option maxRecDepth 16000 in
theorem hpEq6 : checkForcedChain (setCell hpG2 6 8 (some 7)) hpSteps6 = some hpG6 := by
  decide

set_option maxRecDepth 16000 in
theorem hpEq7 : checkForcedChain (setCell hpG6 3 1 (some 2)) hpSteps7 = some hpG7 := by
  decide

set_option maxRecDepth 16000 in
theorem hpEq8 : checkForcedChain (setCell hpG6 3 1 (some 7)) hpSteps8 = some hpG8 := by
  decide

set_option maxRecDepth 16000 in
theorem hpEq9 : checkForcedChain (setCell hpG8 0 3 (some 5)) hpSteps9 = some hpG9 := by
  decide

set_option maxRecDepth 16000 in
theorem hpEq10 : checkForcedChain (setCell hpG8 0 3 (some 6)) hpSteps10 = some hpSolution := by
  decide

set_option maxRecDepth 16000 in
theorem hpEq11 : checkForcedChain (setCell hpG1 8 5 (some 9)) hpSteps11 = some hpG10 := by
  decide

set_option maxRecDepth 16000 in
theorem hpEq12 : checkForcedChain (setCell hpG10 7 6 (some 2)) hpSteps12 = some hpG11 := by
  decide

set_option maxRecDepth 16000 in
theorem hpEq13 : checkForcedChain (setCell hpG10 7 6 (some 8)) hpSteps13 = some hpG12 := by
  decide

set_option maxRecDepth 16000 in
theorem hpEq14 : checkForcedChain (setCell hpG12 3 1 (some 2)) hpSteps14 = some hpG13 := by
  decide

set_option maxRecDepth 16000 in
theorem hpEq15 : checkForcedChain (setCell hpG12 3 1 (some 7)) hpSteps15 = some hpG14 := by
  decide

set_option maxRecDepth 16000 in
theorem hpEq16 : checkForcedChain (setCell hpG14 0 3 (some 5)) hpSteps16 = some hpG15 := by
  decide

set_option maxRecDepth 16000 in
theorem hpEq17 : checkForcedChain (setCell hpG14 0 3 (some 6)) hpSteps17 = some hpG16 := by
  decide

set_option maxRecDepth 16000 in
theorem hpEq18 : checkForcedChain (setCell hardcodedPuzzle 8 3 (some 5)) hpSteps18 = some hpG17 := by
  decide

set_option maxRecDepth 16000 in
theorem hpEq19 : checkForcedChain (setCell hpG17 8 4 (some 1)) hpSteps19 = some hpG18 := by
  decide

set_option maxRecDepth 16000 in
theorem hpEq20 : checkForcedChain (setCell hpG18 3 1 (some 2)) hpSteps20 = some hpG19 := by
  decide

set_option maxRecDepth 16000 in
theorem hpEq21 : checkForcedChain (setCell hpG18 3 1 (some 7)) hpSteps21 = some hpG20 := by
  decide

set_option maxRecDepth 16000 in
theorem hpEq22 : checkForcedChain (setCell hpG17 8 4 (some 9)) hpSteps22 = some hpG21 := by
  decide

set_option maxRecDepth 16000 in
theorem hpEq23 : checkForcedChain (setCell hpG21 3 3 (some 2)) hpSteps23 = some hpG22 := by
  decide

set_option maxRecDepth 16000 in
theorem hpEq24 : checkForcedChain (setCell hpG21 3 3 (some 4)) hpSteps24 = some hpG23 := by
  decide

set_option maxRecDepth 16000 in
theorem hpEq25 : checkForcedChain (setCell hpG23 5 4 (some 2)) hpSteps25 = some hpG24 := by
  decide

set_option maxRecDepth 16000 in
theorem hpEq26 : checkForcedChain (setCell hpG23 5 4 (some 3)) hpSteps26 = some hpG25 := by
  decide

set_option maxRecDepth 16000 in
/-- The fixed puzzle `gameStore.ts`'s `generateSudokuPuzzle` returns (for
every difficulty) has exactly one solution. -/
theorem hardcodedPuzzle_unique : ∃! s : Grid, IsSolution hardcodedPuzzle s := by
  refine ⟨hpSolution, by decide, ?_⟩
  intro s hs0

  obtain ⟨w0, hsv0, hm0⟩ := solution_value_in_legal hs0 (by decide) (by decide)
    ((by decide : getCell hardcodedPuzzle 8 3 = none))
  rw [(by decide : getLegalValues hardcodedPuzzle 8 3 = [1, 5])] at hm0
  have hv0 : w0 = 1 ∨ w0 = 5 := by simpa using hm0
  rcases hv0 with rfl | rfl
  · have ha1 : IsSolution (setCell hardcodedPuzzle 8 3 (some 1)) s :=
      IsSolution_setCell (by decide) (by decide) (by decide) hs0 hsv0
    have hb1 : IsSolution hpG1 s :=
      checkForcedChain_sound hpSteps1 _ _ (wellFormed_setCell _ (by decide)) hpEq1 ha1
    obtain ⟨w1, hsv1, hm1⟩ := solution_value_in_legal hb1 (by decide) (by decide)
      ((by decide : getCell hpG1 8 5 = none))
    rw [(by decide : getLegalValues hpG1 8 5 = [7, 9])] at hm1
    have hv1 : w1 = 7 ∨ w1 = 9 := by simpa using hm1
    rcases hv1 with rfl | rfl
    · have ha2 : IsSolution (setCell hpG1 8 5 (some 7)) s :=
        IsSolution_setCell (by decide) (by decide) (by decide) hb1 hsv1
      have hb2 : IsSolution hpG2 s :=
        checkForcedChain_sound hpSteps2 _ _ (wellFormed_setCell _ (by decide)) hpEq2 ha2
      obtain ⟨w2, hsv2, hm2⟩ := solution_value_in_legal hb2 (by decide) (by decide)
        ((by decide : getCell hpG2 6 8 = none))
      rw [(by decide : getLegalValues hpG2 6 8 = [2, 7])] at hm2
      have hv2 : w2 = 2 ∨ w2 = 7 := by simpa using hm2
      rcases hv2 with rfl | rfl
      · have ha3 : IsSolution (setCell hpG2 6 8 (some 2)) s :=
          IsSolution_setCell (by decide) (by decide) (by decide) hb2 hsv2
        have hb3 : IsSolution hpG3 s :=
          checkForcedChain_sound hpSteps3 _ _ (wellFormed_setCell _ (by decide)) hpEq3 ha3
        obtain ⟨w3, hsv3, hm3⟩ := solution_value_in_legal hb3 (by decide) (by decide)
          ((by decide : getCell hpG3 0 3 = none))
        rw [(by decide : getLegalValues hpG3 0 3 = [5, 6])] at hm3
        have hv3 : w3 = 5 ∨ w3 = 6 := by simpa using hm3
        rcases hv3 with rfl | rfl
        · have ha4 : IsSolution (setCell hpG3 0 3 (some 5)) s :=
            IsSolution_setCell (by decide) (by decide) (by decide) hb3 hsv3
          have hb4 : IsSolution hpG4 s :=
            checkForcedChain_sound hpSteps4 _ _ (wellFormed_setCell _ (by decide)) hpEq4 ha4
          obtain ⟨u4, hu4, hn4⟩ := solution_value_in_legal hb4 (by decide) (by decide)
            ((by decide : getCell hpG4 3 6 = none))
          rw [(by decide : getLegalValues hpG4 3 6 = [])] at hn4
          exact absurd hn4 (List.not_mem_nil u4)
        · have ha5 : IsSolution (setCell hpG3 0 3 (some 6)) s :=
            IsSolution_setCell (by decide) (by decide) (by decide) hb3 hsv3
          have hb5 : IsSolution hpG5 s :=
            checkForcedChain_sound hpSteps5 _ _ (wellFormed_setCell _ (by decide)) hpEq5 ha5
          obtain ⟨u5, hu5, hn5⟩ := solution_value_in_legal hb5 (by decide) (by decide)
            ((by decide : getCell hpG5 3 6 = none))
          rw [(by decide : getLegalValues hpG5 3 6 = [])] at hn5
          exact absurd hn5 (List.not_mem_nil u5)
      · have ha6 : IsSolution (setCell hpG2 6 8 (some 7)) s :=
          IsSolution_setCell (by decide) (by decide) (by decide) hb2 hsv2
        have hb6 : IsSolution hpG6 s :=
          checkForcedChain_sound hpSteps6 _ _ (wellFormed_setCell _ (by decide)) hpEq6 ha6
        obtain ⟨w6, hsv6, hm6⟩ := solution_value_in_legal hb6 (by decide) (by decide)
          ((by decide : getCell hpG6 3 1 = none))
        rw [(by decide : getLegalValues hpG6 3 1 = [2, 7])] at hm6
        have hv6 : w6 = 2 ∨ w6 = 7 := by simpa using hm6
        rcases hv6 with rfl | rfl
        · have ha7 : IsSolution (setCell hpG6 3 1 (some 2)) s :=
            IsSolution_setCell (by decide) (by decide) (by decide) hb6 hsv6
          have hb7 : IsSolution hpG7 s :=
            checkForcedChain_sound hpSteps7 _ _ (wellFormed_setCell _ (by decide)) hpEq7 ha7
          obtain ⟨u7, hu7, hn7⟩ := solution_value_in_legal hb7 (by decide) (by decide)
            ((by decide : getCell hpG7 0 7 = none))
          rw [(by decide : getLegalValues hpG7 0 7 = [])] at hn7
          exact absurd hn7 (List.not_mem_nil u7)
        · have ha8 : IsSolution (setCell hpG6 3 1 (some 7)) s :=
            IsSolution_setCell (by decide) (by decide) (by decide) hb6 hsv6
          have hb8 : IsSolution hpG8 s :=
            checkForcedChain_sound hpSteps8 _ _ (wellFormed_setCell _ (by decide)) hpEq8 ha8
          obtain ⟨w8, hsv8, hm8⟩ := solution_value_in_legal hb8 (by decide) (by decide)
            ((by decide : getCell hpG8 0 3 = none))
          rw [(by decide : getLegalValues hpG8 0 3 = [5, 6])] at hm8
          have hv8 : w8 = 5 ∨ w8 = 6 := by simpa using hm8
          rcases hv8 with rfl | rfl
          · have ha9 : IsSolution (setCell hpG8 0 3 (some 5)) s :=
              IsSolution_setCell (by decide) (by decide) (by decide) hb8 hsv8
            have hb9 : IsSolution hpG9 s :=
              checkForcedChain_sound hpSteps9 _ _ (wellFormed_setCell _ (by decide)) hpEq9 ha9
            obtain ⟨u9, hu9, hn9⟩ := solution_value_in_legal hb9 (by decide) (by decide)
              ((by decide : getCell hpG9 1 5 = none))
            rw [(by decide : getLegalValues hpG9 1 5 = [])] at hn9
            exact absurd hn9 (List.not_mem_nil u9)
          · have ha10 : IsSolution (setCell hpG8 0 3 (some 6)) s :=
              IsSolution_setCell (by decide) (by decide) (by decide) hb8 hsv8
            have hb10 : IsSolution hpSolution s :=
              checkForcedChain_sound hpSteps10 _ _ (wellFormed_setCell _ (by decide)) hpEq10 ha10
            exact eq_of_solution_complete hb10 (by decide) (by decide)
    · have ha11 : IsSolution (setCell hpG1 8 5 (some 9)) s :=
        IsSolution_setCell (by decide) (by decide) (by decide) hb1 hsv1
      have hb11 : IsSolution hpG10 s :=
        checkForcedChain_sound hpSteps11 _ _ (wellFormed_setCell _ (by decide)) hpEq11 ha11
      obtain ⟨w11, hsv11, hm11⟩ := solution_value_in_legal hb11 (by decide) (by decide)
        ((by decide : getCell hpG10 7 6 = none))
      rw [(by decide : getLegalValues hpG10 7 6 = [2, 8])] at hm11
      have hv11 : w11 = 2 ∨ w11 = 8 := by simpa using hm11
      rcases hv11 with rfl | rfl
      · have ha12 : IsSolution (setCell hpG10 7 6 (some 2)) s :=
          IsSolution_setCell (by decide) (by decide) (by decide) hb11 hsv11
        have hb12 : IsSolution hpG11 s :=
          checkForcedChain_sound hpSteps12 _ _ (wellFormed_setCell _ (by decide)) hpEq12 ha12
        obtain ⟨u12, hu12, hn12⟩ := solution_value_in_legal hb12 (by decide) (by decide)
          ((by decide : getCell hpG11 7 8 = none))
        rw [(by decide : getLegalValues hpG11 7 8 = [])] at hn12
        exact absurd hn12 (List.not_mem_nil u12)
      · have ha13 : IsSolution (setCell hpG10 7 6 (some 8)) s :=
          IsSolution_setCell (by decide) (by decide) (by decide) hb11 hsv11
        have hb13 : IsSolution hpG12 s :=
          checkForcedChain_sound hpSteps13 _ _ (wellFormed_setCell _ (by decide)) hpEq13 ha13
        obtain ⟨w13, hsv13, hm13⟩ := solution_value_in_legal hb13 (by decide) (by decide)
          ((by decide : getCell hpG12 3 1 = none))
        rw [(by decide : getLegalValues hpG12 3 1 = [2, 7])] at hm13
        have hv13 : w13 = 2 ∨ w13 = 7 := by simpa using hm13
        rcases hv13 with rfl | rfl
        · have ha14 : IsSolution (setCell hpG12 3 1 (some 2)) s :=
            IsSolution_setCell (by decide) (by decide) (by decide) hb13 hsv13
          have hb14 : IsSolution hpG13 s :=
            checkForcedChain_sound hpSteps14 _ _ (wellFormed_setCell _ (by decide)) hpEq14 ha14
          obtain ⟨u14, hu14, hn14⟩ := solution_value_in_legal hb14 (by decide) (by decide)
            ((by decide : getCell hpG13 1 7 = none))
          rw [(by decide : getLegalValues hpG13 1 7 = [])] at hn14
          exact absurd hn14 (List.not_mem_nil u14)
        · have ha15 : IsSolution (setCell hpG12 3 1 (some 7)) s :=
            IsSolution_setCell (by decide) (by decide) (by decide) hb13 hsv13
          have hb15 : IsSolution hpG14 s :=
            checkForcedChain_sound hpSteps15 _ _ (wellFormed_setCell _ (by decide)) hpEq15 ha15
          obtain ⟨w15, hsv15, hm15⟩ := solution_value_in_legal hb15 (by decide) (by decide)
            ((by decide : getCell hpG14 0 3 = none))
          rw [(by decide : getLegalValues hpG14 0 3 = [5, 6])] at hm15
          have hv15 : w15 = 5 ∨ w15 = 6 := by simpa using hm15
          rcases hv15 with rfl | rfl
          · have ha16 : IsSolution (setCell hpG14 0 3 (some 5)) s :=
              IsSolution_setCell (by decide) (by decide) (by decide) hb15 hsv15
            have hb16 : IsSolution hpG15 s :=
              checkForcedChain_sound hpSteps16 _ _ (wellFormed_setCell _ (by decide)) hpEq16 ha16
            obtain ⟨u16, hu16, hn16⟩ := solution_value_in_legal hb16 (by decide) (by decide)
              ((by decide : getCell hpG15 0 8 = none))
            rw [(by decide : getLegalValues hpG15 0 8 = [])] at hn16
            exact absurd hn16 (List.not_mem_nil u16)
          · have ha17 : IsSolution (setCell hpG14 0 3 (some 6)) s :=
              IsSolution_setCell (by decide) (by decide) (by decide) hb15 hsv15
            have hb17 : IsSolution hpG16 s :=
              checkForcedChain_sound hpSteps17 _ _ (wellFormed_setCell _ (by decide)) hpEq17 ha17
            obtain ⟨u17, hu17, hn17⟩ := solution_value_in_legal hb17 (by decide) (by decide)
              ((by decide : getCell hpG16 1 5 = none))
            rw [(by decide : getLegalValues hpG16 1 5 = [])] at hn17
            exact absurd hn17 (List.not_mem_nil u17)
  · have ha18 : IsSolution (setCell hardcodedPuzzle 8 3 (some 5)) s :=
      IsSolution_setCell (by decide) (by decide) (by decide) hs0 hsv0
    have hb18 : IsSolution hpG17 s :=
      checkForcedChain_sound hpSteps18 _ _ (wellFormed_setCell _ (by decide)) hpEq18 ha18
    obtain ⟨w18, hsv18, hm18⟩ := solution_value_in_legal hb18 (by decide) (by decide)
      ((by decide : getCell hpG17 8 4 = none))
    rw [(by decide : getLegalValues hpG17 8 4 = [1, 9])] at hm18
    have hv18 : w18 = 1 ∨ w18 = 9 := by simpa using hm18
    rcases hv18 with rfl | rfl
    · have ha19 : IsSolution (setCell hpG17 8 4 (some 1)) s :=
        IsSolution_setCell (by decide) (by decide) (by decide) hb18 hsv18
      have hb19 : IsSolution hpG18 s :=
        checkForcedChain_sound hpSteps19 _ _ (wellFormed_setCell _ (by decide)) hpEq19 ha19
      obtain ⟨w19, hsv19, hm19⟩ := solution_value_in_legal hb19 (by decide) (by decide)
        ((by decide : getCell hpG18 3 1 = none))
      rw [(by decide : getLegalValues hpG18 3 1 = [2, 7])] at hm19
      have hv19 : w19 = 2 ∨ w19 = 7 := by simpa using hm19
      rcases hv19 with rfl | rfl
      · have ha20 : IsSolution (setCell hpG18 3 1 (some 2)) s :=
          IsSolution_setCell (by decide) (by decide) (by decide) hb19 hsv19
        have hb20 : IsSolution hpG19 s :=
          checkForcedChain_sound hpSteps20 _ _ (wellFormed_setCell _ (by decide)) hpEq20 ha20
        obtain ⟨u20, hu20, hn20⟩ := solution_value_in_legal hb20 (by decide) (by decide)
          ((by decide : getCell hpG19 3 7 = none))
        rw [(by decide : getLegalValues hpG19 3 7 = [])] at hn20
        exact absurd hn20 (List.not_mem_nil u20)
      · have ha21 : IsSolution (setCell hpG18 3 1 (some 7)) s :=
          IsSolution_setCell (by decide) (by decide) (by decide) hb19 hsv19
        have hb21 : IsSolution hpG20 s :=
          checkForcedChain_sound hpSteps21 _ _ (wellFormed_setCell _ (by decide)) hpEq21 ha21
        obtain ⟨u21, hu21, hn21⟩ := solution_value_in_legal hb21 (by decide) (by decide)
          ((by decide : getCell hpG20 3 7 = none))
        rw [(by decide : getLegalValues hpG20 3 7 = [])] at hn21
        exact absurd hn21 (List.not_mem_nil u21)
    · have ha22 : IsSolution (setCell hpG17 8 4 (some 9)) s :=
        IsSolution_setCell (by decide) (by decide) (by decide) hb18 hsv18
      have hb22 : IsSolution hpG21 s :=
        checkForcedChain_sound hpSteps22 _ _ (wellFormed_setCell _ (by decide)) hpEq22 ha22
      obtain ⟨w22, hsv22, hm22⟩ := solution_value_in_legal hb22 (by decide) (by decide)
        ((by decide : getCell hpG21 3 3 = none))
      rw [(by decide : getLegalValues hpG21 3 3 = [2, 4])] at hm22
      have hv22 : w22 = 2 ∨ w22 = 4 := by simpa using hm22
      rcases hv22 with rfl | rfl
      · have ha23 : IsSolution (setCell hpG21 3 3 (some 2)) s :=
          IsSolution_setCell (by decide) (by decide) (by decide) hb22 hsv22
        have hb23 : IsSolution hpG22 s :=
          checkForcedChain_sound hpSteps23 _ _ (wellFormed_setCell _ (by decide)) hpEq23 ha23
        obtain ⟨u23, hu23, hn23⟩ := solution_value_in_legal hb23 (by decide) (by decide)
          ((by decide : getCell hpG22 2 7 = none))
        rw [(by decide : getLegalValues hpG22 2 7 = [])] at hn23
        exact absurd hn23 (List.not_mem_nil u23)
      · have ha24 : IsSolution (setCell hpG21 3 3 (some 4)) s :=
          IsSolution_setCell (by decide) (by decide) (by decide) hb22 hsv22
        have hb24 : IsSolution hpG23 s :=
          checkForcedChain_sound hpSteps24 _ _ (wellFormed_setCell _ (by decide)) hpEq24 ha24
        obtain ⟨w24, hsv24, hm24⟩ := solution_value_in_legal hb24 (by decide) (by decide)
          ((by decide : getCell hpG23 5 4 = none))
        rw [(by decide : getLegalValues hpG23 5 4 = [2, 3])] at hm24
        have hv24 : w24 = 2 ∨ w24 = 3 := by simpa using hm24
        rcases hv24 with rfl | rfl
        · have ha25 : IsSolution (setCell hpG23 5 4 (some 2)) s :=
            IsSolution_setCell (by decide) (by decide) (by decide) hb24 hsv24
          have hb25 : IsSolution hpG24 s :=
            checkForcedChain_sound hpSteps25 _ _ (wellFormed_setCell _ (by decide)) hpEq25 ha25
          obtain ⟨u25, hu25, hn25⟩ := solution_value_in_legal hb25 (by decide) (by decide)
            ((by decide : getCell hpG24 0 8 = none))
          rw [(by decide : getLegalValues hpG24 0 8 = [])] at hn25
          exact absurd hn25 (List.not_mem_nil u25)
        · have ha26 : IsSolution (setCell hpG23 5 4 (some 3)) s :=
            IsSolution_setCell (by decide) (by decide) (by decide) hb24 hsv24
          have hb26 : IsSolution hpG25 s :=
            checkForcedChain_sound hpSteps26 _ _ (wellFormed_setCell _ (by decide)) hpEq26 ha26
          obtain ⟨u26, hu26, hn26⟩ := solution_value_in_legal hb26 (by decide) (by decide)
            ((by decide : getCell hpG25 0 7 = none))
          rw [(by decide : getLegalValues hpG25 0 7 = [])] at hn26
          exact absurd hn26 (List.not_mem_nil u26)

end Sudoku
